import Mathlib

/-!
Verification of the uop emulator in tinygrad/runtime/ops_python.py.

The development shallowly embeds the source file: the ALU evaluator
(exec_alu with its promotion and overflow-upgrade logic), the memory access
layer (_load / load / _store and the image branches), the tensor-core
emulation (wmma_helper with the two hardware layouts), and the instruction
interpreter (PythonProgram.__call__) as a step function on an explicit
state.

Python values are modelled by PyVal: exact integers, booleans, and floats.
Floats are modelled exactly: a float is NaN, a rational (Python floats are
rationals; rounding of arithmetic is not modelled since no verified claim
depends on it), or a symbolic irrational value (PyFloat.irr) produced by the
transcendental operations, whose numeric value no verified claim depends on.

The dtype catalog (tinygrad/dtype.py) is not part of the given source tree;
its members (dtypes.type, is_int, is_float, is_bool, is_unsigned, as_type,
check_bounds, get_highest_order, is_uniform_types) are modelled from the
specification text, as marked on each definition.
-/

/-- Decidable equality for Except results, so concrete runs of the embedded
functions can be checked by decide. -/
instance exceptDecidableEq {ε α : Type} [DecidableEq ε] [DecidableEq α] :
    DecidableEq (Except ε α) := fun x y =>
  match x, y with
  | Except.ok a, Except.ok b =>
      if h : a = b then Decidable.isTrue (congrArg Except.ok h)
      else Decidable.isFalse (fun hc => h (Except.ok.inj hc))
  | Except.error a, Except.error b =>
      if h : a = b then Decidable.isTrue (congrArg Except.error h)
      else Decidable.isFalse (fun hc => h (Except.error.inj hc))
  | Except.ok _, Except.error _ => Decidable.isFalse (fun hc => Except.noConfusion hc)
  | Except.error _, Except.ok _ => Decidable.isFalse (fun hc => Except.noConfusion hc)

/-- Model of a Python float: NaN, an exact (rational) finite value, or a
symbolic irrational value produced by a transcendental operation (tagged by
the operation; no verified claim depends on its numeric value). -/
inductive PyFloat where
  | nan : PyFloat
  | fin : ℚ → PyFloat
  | irr : Nat → ℚ → PyFloat
deriving DecidableEq, Repr

/-- Model of a Python runtime value flowing through the emulator. -/
inductive PyVal where
  | vbool : Bool → PyVal
  | vint : Int → PyVal
  | vfloat : PyFloat → PyVal
deriving DecidableEq, Repr

/-- Scalar dtype classification, per the spec data model (bool / signed int /
unsigned int / float). -/
inductive DTClass where
  | cbool : DTClass
  | csint : DTClass
  | cuint : DTClass
  | cfloat : DTClass
deriving DecidableEq, Repr

/-- Modelled from the spec: a dtype descriptor (classification, bit width,
vector count, and an image shape marker for ImageDType). The dtype catalog
is not part of the given source tree. -/
structure MDType where
  klass : DTClass
  bits : Nat
  count : Nat := 1
  ishape : Option (Nat × Nat) := none
deriving DecidableEq, Repr

namespace dtypes

def bool : MDType := ⟨DTClass.cbool, 8, 1, none⟩

def int32 : MDType := ⟨DTClass.csint, 32, 1, none⟩

/-- The 64-bit signed type (dtypes.int64 / dtypes.long). -/
def long : MDType := ⟨DTClass.csint, 64, 1, none⟩

def uint32 : MDType := ⟨DTClass.cuint, 32, 1, none⟩

/-- The 64-bit unsigned type (dtypes.uint64 / dtypes.ulong). -/
def ulong : MDType := ⟨DTClass.cuint, 64, 1, none⟩

def float32 : MDType := ⟨DTClass.cfloat, 32, 1, none⟩

def double : MDType := ⟨DTClass.cfloat, 64, 1, none⟩

def is_bool (d : MDType) : Bool := d.klass = DTClass.cbool

/-- Modelled from the spec: integer classification covers signed and
unsigned integers (the source guards xor and mod with
`is_int dtype and not is_unsigned dtype`, so is_int must include unsigned). -/
def is_int (d : MDType) : Bool := d.klass = DTClass.csint ∨ d.klass = DTClass.cuint

def is_unsigned (d : MDType) : Bool := d.klass = DTClass.cuint

def is_float (d : MDType) : Bool := d.klass = DTClass.cfloat

/-- Modelled from the spec: the natural dtype of a Python value
(dtypes.type). A Python bool is the bool dtype, a Python int defaults to the
32-bit signed dtype, a Python float is a double. -/
def type (v : PyVal) : MDType :=
  match v with
  | PyVal.vbool _ => bool
  | PyVal.vint _ => int32
  | PyVal.vfloat _ => double

/-- Modelled from the spec (section 4.1): rank of a dtype under the promotion
ordering boolean < int-by-width < float-by-width, with unsigned and signed
as distinct classes. -/
def rank (d : MDType) : Nat :=
  (match d.klass with
   | DTClass.cbool => 0
   | DTClass.cuint => 1000
   | DTClass.csint => 2000
   | DTClass.cfloat => 4000) + d.bits

/-- Modelled from the spec: the highest-order dtype among a list of types
(dtypes.get_highest_order). -/
def get_highest_order (ts : List MDType) : MDType :=
  match ts with
  | [] => bool
  | t :: rest => rest.foldl (fun acc u => if rank acc < rank u then u else acc) t

/-- Modelled from the spec: whether all the given types share one basic
class (dtypes.is_uniform_types); mixing basic classes is a type mismatch. -/
def is_uniform_types (ts : List MDType) : Bool :=
  match ts with
  | [] => true
  | t :: rest => rest.all (fun u => u.klass = t.klass)

/-- Largest finite magnitude representable in a float of the given width
(exact rationals for the IEEE widths). -/
def fmax (bits : Nat) : ℚ :=
  if bits = 16 then 65504
  else if bits = 32 then (2 ^ 24 - 1) * 2 ^ 104
  else (2 ^ 53 - 1) * 2 ^ 971

/-- Signed/unsigned integer range of a dtype: inclusive lower bound. -/
def intLo (d : MDType) : Int :=
  if is_unsigned d then 0 else -(2 ^ (d.bits - 1))

/-- Signed/unsigned integer range of a dtype: exclusive upper bound. -/
def intHi (d : MDType) : Int :=
  if is_unsigned d then 2 ^ d.bits else 2 ^ (d.bits - 1)

end dtypes

/-- Python truthiness test inverted: true when the value equals zero
(False, 0, 0.0). NaN and symbolic irrational values are nonzero. -/
def PyVal.eqZero : PyVal → Bool
  | PyVal.vbool b => !b
  | PyVal.vint n => n = 0
  | PyVal.vfloat (PyFloat.fin q) => q = 0
  | PyVal.vfloat _ => false

/-- Exact rational view of a value, when it has one (bools are 0/1; NaN and
symbolic irrationals have none). -/
def PyVal.toQ : PyVal → Option ℚ
  | PyVal.vbool b => some (if b then 1 else 0)
  | PyVal.vint n => some (n : ℚ)
  | PyVal.vfloat (PyFloat.fin q) => some q
  | PyVal.vfloat _ => none

/-- Integer view of a value for Python arithmetic (bool coerces to 0/1). -/
def PyVal.asNum : PyVal → Sum Int PyFloat
  | PyVal.vbool b => Sum.inl (if b then 1 else 0)
  | PyVal.vint n => Sum.inl n
  | PyVal.vfloat f => Sum.inr f

/-- Float view of a value (ints and bools become exact finite floats). -/
def PyVal.asFloat : PyVal → PyFloat
  | PyVal.vbool b => PyFloat.fin (if b then 1 else 0)
  | PyVal.vint n => PyFloat.fin (n : ℚ)
  | PyVal.vfloat f => f

/-- Binary float arithmetic: NaN propagates; finite values combine exactly;
an operation touching a symbolic irrational yields a symbolic value tagged
by the operation (no verified claim depends on such values). -/
def fArith (fq : ℚ → ℚ → ℚ) (tag : Nat) : PyFloat → PyFloat → PyFloat
  | PyFloat.nan, _ => PyFloat.nan
  | _, PyFloat.nan => PyFloat.nan
  | PyFloat.fin a, PyFloat.fin b => PyFloat.fin (fq a b)
  | _, _ => PyFloat.irr tag 0

/-- Binary Python arithmetic on values: int op int stays int; any float
operand makes the result a float. -/
def pvArith (fi : Int → Int → Int) (fq : ℚ → ℚ → ℚ) (tag : Nat) (a b : PyVal) : PyVal :=
  match a.asNum, b.asNum with
  | Sum.inl m, Sum.inl n => PyVal.vint (fi m n)
  | Sum.inl m, Sum.inr g => PyVal.vfloat (fArith fq tag (PyFloat.fin (m : ℚ)) g)
  | Sum.inr f, Sum.inl n => PyVal.vfloat (fArith fq tag f (PyFloat.fin (n : ℚ)))
  | Sum.inr f, Sum.inr g => PyVal.vfloat (fArith fq tag f g)

def pvAdd (a b : PyVal) : PyVal := pvArith (fun x y => x + y) (fun x y => x + y) 1 a b

def pvMul (a b : PyVal) : PyVal := pvArith (fun x y => x * y) (fun x y => x * y) 2 a b

def pvSub (a b : PyVal) : PyVal := pvArith (fun x y => x - y) (fun x y => x - y) 3 a b

/-- Python floor division (the // operator): floor division on ints, floored
quotient as a float when a float participates. -/
def pvFloorDiv (a b : PyVal) : PyVal :=
  pvArith (fun x y => Int.fdiv x y) (fun x y => ((⌊x / y⌋ : Int) : ℚ)) 4 a b

/-- Python true division (the / operator): always produces a float. -/
def pvTrueDiv (a b : PyVal) : PyVal :=
  PyVal.vfloat (fArith (fun x y => x / y) 5 a.asFloat b.asFloat)

/-- Python modulo (sign follows the divisor, i.e. floor-mod on ints). -/
def pvMod (a b : PyVal) : PyVal :=
  pvArith (fun x y => Int.fmod x y) (fun x y => x - y * (⌊x / y⌋ : Int)) 6 a b

/-- Python unary minus. -/
def pvNeg (a : PyVal) : PyVal :=
  match a.asNum with
  | Sum.inl n => PyVal.vint (-n)
  | Sum.inr PyFloat.nan => PyVal.vfloat PyFloat.nan
  | Sum.inr (PyFloat.fin q) => PyVal.vfloat (PyFloat.fin (-q))
  | Sum.inr (PyFloat.irr t q) => PyVal.vfloat (PyFloat.irr (t + 100) q)

/-- Python xor on integers (only reached for integer operands: check_types
has enforced class uniformity with an integer dtype before the operation
table runs). -/
def pvXor (a b : PyVal) : PyVal :=
  match a.asNum, b.asNum with
  | Sum.inl m, Sum.inl n => PyVal.vint (Int.xor m n)
  | _, _ => PyVal.vint 0

/-- Python less-than on numeric values; any comparison with NaN (or a
symbolic irrational) is false. -/
def pvLtB (a b : PyVal) : Bool :=
  match a.toQ, b.toQ with
  | some x, some y => decide (x < y)
  | _, _ => false

/-- Python numeric equality; NaN is not equal to anything. -/
def pvEqB (a b : PyVal) : Bool :=
  match a.toQ, b.toQ with
  | some x, some y => decide (x = y)
  | _, _ => false

/-- Python max(a, b): returns b exactly when b is greater than a. -/
def pvMax (a b : PyVal) : PyVal := if pvLtB a b then b else a

/-- The test p[0] > 0 from the source (false for NaN). -/
def pvGtZero (a : PyVal) : Bool :=
  match a.toQ with
  | some x => decide (0 < x)
  | none => false

/-- The test p[0] >= 0 from the source (false for NaN). -/
def pvGeZero (a : PyVal) : Bool :=
  match a.toQ with
  | some x => decide (0 ≤ x)
  | none => false

/-- Unary float transcendental result: NaN propagates, any other input gives
a symbolic value tagged by the operation. -/
def pfUnary (tag : Nat) (a : PyVal) : PyFloat :=
  match a with
  | PyVal.vfloat PyFloat.nan => PyFloat.nan
  | _ => PyFloat.irr tag ((a.toQ).getD 0)

/-- Conversion failure kinds raised by the modelled dtype catalog:
OverflowError (a width/precision failure) or TypeError (a structurally
impossible conversion, e.g. NaN into an integer dtype). -/
inductive ConvErr where
  | overflow : ConvErr
  | typeErr : ConvErr
deriving DecidableEq, Repr

namespace dtypes

/-- Truthiness cast to bool, dtypes.as_type(x, dtypes.bool). -/
def as_bool (v : PyVal) : PyVal := PyVal.vbool (! v.eqZero)

/-- Truncation toward zero of a rational, as Python int() does on floats. -/
def truncQ (q : ℚ) : Int := if 0 ≤ q then ⌊q⌋ else ⌈q⌉

/-- Modelled from the spec: dtypes.check_bounds checks that a value is
representable in a dtype, raising OverflowError when the magnitude does not
fit and TypeError when the conversion is structurally impossible (a
non-finite float into a non-float dtype). -/
def check_bounds (r : PyVal) (d : MDType) : Except ConvErr Unit :=
  match d.klass with
  | DTClass.cfloat =>
      match r.toQ with
      | some q => if |q| ≤ fmax d.bits then Except.ok () else Except.error ConvErr.overflow
      | none => Except.ok ()
  | DTClass.cbool =>
      match r with
      | PyVal.vbool _ => Except.ok ()
      | PyVal.vint n => if n = 0 ∨ n = 1 then Except.ok () else Except.error ConvErr.overflow
      | PyVal.vfloat _ => Except.error ConvErr.typeErr
  | _ =>
      match r with
      | PyVal.vbool _ => Except.ok ()
      | PyVal.vint n =>
          if intLo d ≤ n ∧ n < intHi d then Except.ok () else Except.error ConvErr.overflow
      | PyVal.vfloat (PyFloat.fin q) =>
          if (intLo d : ℚ) ≤ q ∧ q < (intHi d : ℚ) then Except.ok () else Except.error ConvErr.overflow
      | PyVal.vfloat _ => Except.error ConvErr.typeErr

/-- Modelled from the spec: dtypes.as_type converts a value into a dtype;
integer targets range-check (OverflowError outside the range) and truncate
floats toward zero; a non-finite float into a non-float dtype is a
TypeError; float targets check the finite magnitude. -/
def as_type (r : PyVal) (d : MDType) : Except ConvErr PyVal :=
  match d.klass with
  | DTClass.cbool => Except.ok (as_bool r)
  | DTClass.cfloat =>
      match r with
      | PyVal.vbool b => Except.ok (PyVal.vfloat (PyFloat.fin (if b then 1 else 0)))
      | PyVal.vint n =>
          if |(n : ℚ)| ≤ fmax d.bits then Except.ok (PyVal.vfloat (PyFloat.fin (n : ℚ)))
          else Except.error ConvErr.overflow
      | PyVal.vfloat (PyFloat.fin q) =>
          if |q| ≤ fmax d.bits then Except.ok (PyVal.vfloat (PyFloat.fin q))
          else Except.error ConvErr.overflow
      | PyVal.vfloat f => Except.ok (PyVal.vfloat f)
  | _ =>
      match r with
      | PyVal.vbool b =>
          Except.ok (PyVal.vint (if b then 1 else 0))
      | PyVal.vint n =>
          if intLo d ≤ n ∧ n < intHi d then Except.ok (PyVal.vint n)
          else Except.error ConvErr.overflow
      | PyVal.vfloat (PyFloat.fin q) =>
          if intLo d ≤ truncQ q ∧ truncQ q < intHi d then Except.ok (PyVal.vint (truncQ q))
          else Except.error ConvErr.overflow
      | PyVal.vfloat _ => Except.error ConvErr.typeErr

/-- Total variant of as_type used where the source never observes a failure
(upcasting a bool into the declared dtype in patch_p). -/
def as_type_total (r : PyVal) (d : MDType) : PyVal :=
  match as_type r d with
  | Except.ok v => v
  | Except.error _ => r

end dtypes

/-- Failure taxonomy of the ALU evaluator, following the spec names:
TypeMismatch is the TypeError from check_types, InvalidOperands the
ValueError for an undefined operand combination, TypeConversionError and
OverflowAfterUpgrade the two failures of the final conversion. -/
inductive AluError where
  | TypeMismatch : AluError
  | UnsupportedOperation : AluError
  | InvalidOperands : AluError
  | TypeConversionError : AluError
  | OverflowAfterUpgrade : AluError
deriving DecidableEq, Repr

/-- The closed set of ALU operation codes appearing in the source dispatch
table (TernaryOps / UnaryOps / BinaryOps members, flattened). -/
inductive AluOp where
  | MULACC : AluOp
  | WHERE : AluOp
  | LOG2 : AluOp
  | EXP2 : AluOp
  | SQRT : AluOp
  | SIN : AluOp
  | NEG : AluOp
  | MUL : AluOp
  | ADD : AluOp
  | SUB : AluOp
  | XOR : AluOp
  | MAX : AluOp
  | CMPEQ : AluOp
  | CMPLT : AluOp
  | DIV : AluOp
  | MOD : AluOp
deriving DecidableEq, Repr

/-- The patch_p function from the source: upcast bool operands to the
declared dtype, then resolve the common dtype as the highest-order type
among the operand natural types and the declared dtype. -/
def patch_p (p : List PyVal) (dtype : MDType) : List PyVal × MDType :=
  let p' :=
    if p.any (fun x => dtypes.is_bool (dtypes.type x)) then
      p.map (fun x => if dtypes.is_bool (dtypes.type x) then dtypes.as_type_total x dtype else x)
    else p
  (p', dtypes.get_highest_order (p'.map dtypes.type ++ [dtype]))

/-- The check_types function from the source, as a boolean: all operand
natural types together with the resolved dtype must share one basic class. -/
def check_types (p : List PyVal) (dtype : MDType) : Bool :=
  dtypes.is_uniform_types (p.map dtypes.type ++ [dtype])

/-- The operation dispatch table of exec_alu. A none result is the
undefined-combination case that exec_alu turns into InvalidOperands.
Lambdas that index p past its length after their length guard has failed
would raise IndexError in Python; that path is not modelled (no claim
touches it) and the out-of-range reads below return a junk 0. -/
def opResult (arg : AluOp) (dtype : MDType) (p : List PyVal) : Option PyVal :=
  let p0 := p.getD 0 (PyVal.vint 0)
  let p1 := p.getD 1 (PyVal.vint 0)
  let p2 := p.getD 2 (PyVal.vint 0)
  match arg with
  | AluOp.MULACC =>
      if p.length = 3 ∧ (dtypes.is_int dtype ∨ dtypes.is_float dtype) then
        some (pvAdd (pvMul p0 p1) p2)
      else none
  | AluOp.WHERE =>
      if !p0.eqZero then some p1
      else if p.length = 3 ∧ dtypes.is_bool (dtypes.type p0) then some p2
      else none
  | AluOp.LOG2 =>
      if p.length = 1 ∧ pvGtZero p0 ∧ dtypes.is_float dtype then
        some (PyVal.vfloat (pfUnary 1 p0))
      else some (PyVal.vfloat PyFloat.nan)
  | AluOp.EXP2 =>
      if p.length = 1 ∧ dtypes.is_float dtype then some (PyVal.vfloat (pfUnary 2 p0))
      else none
  | AluOp.SQRT =>
      if p.length = 1 ∧ pvGeZero p0 ∧ dtypes.is_float dtype then
        some (PyVal.vfloat (pfUnary 3 p0))
      else some (PyVal.vfloat PyFloat.nan)
  | AluOp.SIN =>
      if p.length = 1 ∧ dtypes.is_float dtype then some (PyVal.vfloat (pfUnary 4 p0))
      else none
  | AluOp.NEG =>
      if p.length = 1 ∧ (dtypes.is_int dtype ∨ dtypes.is_float dtype) then some (pvNeg p0)
      else none
  | AluOp.MUL =>
      if p.length = 2 ∧ (dtypes.is_int dtype ∨ dtypes.is_float dtype) then some (pvMul p0 p1)
      else none
  | AluOp.ADD =>
      if p.length = 2 ∧ (dtypes.is_int dtype ∨ dtypes.is_float dtype) then some (pvAdd p0 p1)
      else none
  | AluOp.SUB =>
      if p.length = 2 ∧ (dtypes.is_int dtype ∨ dtypes.is_float dtype) then some (pvSub p0 p1)
      else none
  | AluOp.XOR =>
      if p.length = 2 ∧ dtypes.is_int dtype ∧ ¬ dtypes.is_unsigned dtype then
        some (pvXor p0 p1)
      else none
  | AluOp.MAX =>
      if p.length = 2 ∧ (dtypes.is_int dtype ∨ dtypes.is_float dtype) then some (pvMax p0 p1)
      else none
  | AluOp.CMPEQ =>
      if p.length = 2 ∧ (dtypes.is_int dtype ∨ dtypes.is_float dtype) then
        some (PyVal.vbool (pvEqB p0 p1))
      else none
  | AluOp.CMPLT =>
      if p.length = 2 ∧ (dtypes.is_int dtype ∨ dtypes.is_float dtype) then
        some (PyVal.vbool (pvLtB p0 p1))
      else none
  | AluOp.DIV =>
      if p.length = 2 ∧ dtypes.is_int dtype ∧ ¬ p1.eqZero then some (pvFloorDiv p0 p1)
      else if dtypes.is_float dtype then
        (if ¬ p1.eqZero then some (pvTrueDiv p0 p1) else some (PyVal.vfloat PyFloat.nan))
      else none
  | AluOp.MOD =>
      if p.length = 2 ∧ dtypes.is_int dtype ∧ ¬ dtypes.is_unsigned dtype ∧ ¬ p1.eqZero then
        some (pvMod p0 p1)
      else none

/-- The single automatic precision upgrade of exec_alu: float to double,
unsigned to 64-bit unsigned, signed to 64-bit signed. -/
def upgradeDtype (d : MDType) : MDType :=
  if dtypes.is_float d then dtypes.double
  else if dtypes.is_unsigned d then dtypes.ulong
  else if dtypes.is_int d then dtypes.long
  else d

/-- The conversion tail of exec_alu (the nested try blocks): check the
bounds of the raw result; on OverflowError upgrade the dtype once; then
convert, mapping a conversion OverflowError to OverflowAfterUpgrade and a
TypeError to TypeConversionError. -/
def convertTail (result : PyVal) (dtype : MDType) : Except AluError PyVal :=
  match dtypes.check_bounds result dtype with
  | Except.ok _ =>
      match dtypes.as_type result dtype with
      | Except.ok v => Except.ok v
      | Except.error ConvErr.overflow => Except.error AluError.OverflowAfterUpgrade
      | Except.error ConvErr.typeErr => Except.error AluError.TypeConversionError
  | Except.error ConvErr.overflow =>
      match dtypes.as_type result (upgradeDtype dtype) with
      | Except.ok v => Except.ok v
      | Except.error ConvErr.overflow => Except.error AluError.OverflowAfterUpgrade
      | Except.error ConvErr.typeErr => Except.error AluError.TypeConversionError
  | Except.error ConvErr.typeErr => Except.error AluError.TypeConversionError

/-- The exec_alu function from the source: WHERE forces its first operand to
bool by truthiness and promotes only the remaining operands; every other
operation promotes all operands; then the dispatch table runs and the raw
result goes through the bounds check and conversion tail. -/
def exec_alu (arg : AluOp) (dtype0 : MDType) (pIn : List PyVal) : Except AluError PyVal :=
  let pd : List PyVal × MDType :=
    if arg = AluOp.WHERE then
      let c := dtypes.as_bool (pIn.getD 0 (PyVal.vint 0))
      let r := patch_p (pIn.drop 1) dtype0
      (c :: r.1, r.2)
    else patch_p pIn dtype0
  let p := pd.1
  let dtype := pd.2
  let chk := if arg = AluOp.WHERE then p.drop 1 else p
  if ¬ check_types chk dtype then Except.error AluError.TypeMismatch
  else
    match opResult arg dtype p with
    | none => Except.error AluError.InvalidOperands
    | some result => convertTail result dtype

/-- Memory access failure kinds: OutOfBounds is the IndexError raised by
_load/_store, AssertionFailed a failed source assert statement. -/
inductive MemErr where
  | OutOfBounds : MemErr
  | AssertionFailed : MemErr
deriving DecidableEq, Repr

/-- A Python list comprehension over a fallible body: left-to-right, the
first raised exception aborts the whole comprehension. -/
def mapExcept {α β ε : Type} (f : α → Except ε β) : List α → Except ε (List β)
  | [] => Except.ok []
  | a :: l =>
      match f a with
      | Except.error e => Except.error e
      | Except.ok b =>
          match mapExcept f l with
          | Except.error e => Except.error e
          | Except.ok bs => Except.ok (b :: bs)

/-- The _load function from the source: bounds-checked scalar read from a
buffer; a negative index or one at or past the length raises IndexError. -/
def _load (m : List PyVal) (i : Int) : Except MemErr PyVal :=
  if i < 0 ∨ (m.length : Int) ≤ i then Except.error MemErr.OutOfBounds
  else Except.ok (m.getD i.toNat (PyVal.vint 0))

/-- The _store function from the source: bounds-checked scalar write,
returning the updated buffer contents. -/
def _store (m : List PyVal) (i : Int) (v : PyVal) : Except MemErr (List PyVal) :=
  if i < 0 ∨ (m.length : Int) ≤ i then Except.error MemErr.OutOfBounds
  else Except.ok (m.set i.toNat v)

/-- Python zip over four lists (stops at the shortest), as used by the gated
load comprehension. -/
def zip4 {α β γ δ : Type} : List α → List β → List γ → List δ → List (α × β × γ × δ)
  | a :: as_, b :: bs, c :: cs, d :: ds => (a, b, c, d) :: zip4 as_ bs cs ds
  | _, _, _, _ => []

/-- The argument of the load function: the source passes a list of either
two lists (buffers, offsets) or four lists (buffers, offsets, gates,
defaults); the length test len(inp) == 4 selects the gated form. -/
inductive LoadInp where
  | ungated : List (List PyVal) → List Int → LoadInp
  | gated : List (List PyVal) → List Int → List PyVal → List PyVal → LoadInp

/-- The load function from the source: per lane, the gated form returns the
bounds-checked load when the gate is truthy and the supplied default
otherwise (with no bounds check); the ungated form always bounds-checks. -/
def load (inp : LoadInp) (j : Int) : Except MemErr (List PyVal) :=
  match inp with
  | LoadInp.gated ms xs gates ds =>
      mapExcept
        (fun t => if t.2.2.1.eqZero = false then _load t.1 (t.2.1 + j) else Except.ok t.2.2.2)
        (zip4 ms xs gates ds)
  | LoadInp.ungated ms xs =>
      mapExcept (fun t => _load t.1 (t.2 + j)) (ms.zip xs)

/-- One lane and one channel of the image-load branch of the interpreter
(src lines 185-193): out-of-range coordinates contribute a literal 0,
in-range coordinates read the packed linear address x*4 + y*W*4 + channel.
The image shape is (H, W) = (shape[0], shape[1]). -/
def imageLoadLane (m : List PyVal) (H W : Nat) (ox oy : Int) (ch : Nat) :
    Except MemErr PyVal :=
  if ox < 0 ∨ (W : Int) ≤ ox ∨ oy < 0 ∨ (H : Int) ≤ oy then Except.ok (PyVal.vint 0)
  else _load m (ox * 4 + oy * (W : Int) * 4 + (ch : Int))

/-- One lane and one channel of the image-store branch of the interpreter
(src lines 118-126): the coordinates are asserted in range before _store
writes the packed linear address. -/
def imageStoreLane (m : List PyVal) (H W : Nat) (ox oy : Int) (ch : Nat) (v : PyVal) :
    Except MemErr (List PyVal) :=
  if 0 ≤ ox ∧ ox < (W : Int) ∧ 0 ≤ oy ∧ oy < (H : Int) then
    _store m (ox * 4 + oy * (W : Int) * 4 + (ch : Int)) v
  else Except.error MemErr.AssertionFailed

/-- Python sum over a list of values: a left fold starting from the int 0,
exactly as the builtin sum used by wmma_helper. -/
def pySum (l : List PyVal) : PyVal := l.foldl pvAdd (PyVal.vint 0)

/-- The read-modify-write statement out[elem][pos] += s of wmma_helper. -/
def wmmaAcc (out : List (List PyVal)) (elem pos : Nat) (s : PyVal) : List (List PyVal) :=
  out.set elem ((out.getD elem []).set pos (pvAdd ((out.getD elem []).getD pos (PyVal.vint 0)) s))

/-- The inner product accumulated for one output position of wmma_helper:
sum over k in range(K) of a_elem(A, k, c_j, goff) * b_elem(B, c_i, k, goff). -/
def wmmaDot (K : Nat) (aE bE : List (List PyVal) → Nat → Nat → Nat → PyVal)
    (A B : List (List PyVal)) (ci cj goff : Nat) : PyVal :=
  pySum ((List.range K).map (fun k => pvMul (aE A k cj goff) (bE B ci k goff)))

/-- Innermost loop of wmma_helper: for elem_idx in range(NUM_C), accumulate
into out[elem_idx][pos]. -/
def wmmaElemFold (p : Nat) (S : Nat → PyVal) (o : List (List PyVal)) (es : List Nat) :
    List (List PyVal) :=
  es.foldl (fun acc e => wmmaAcc acc e p (S e)) o

/-- Middle loop of wmma_helper: for lane_id in range(WARP_THREADS), run the
element loop at position goff + lane_id. -/
def wmmaLaneFold (NC goff : Nat) (S : Nat → Nat → PyVal) (o : List (List PyVal))
    (ls : List Nat) : List (List PyVal) :=
  ls.foldl (fun acc lane => wmmaElemFold (goff + lane) (S lane) acc (List.range NC)) o

/-- Outer loop of wmma_helper: for goff in range(0, warp_size, WARP_THREADS),
run the lane loop of that warp group. -/
def wmmaGoffFold (WT NC : Nat) (S : Nat → Nat → Nat → PyVal) (o : List (List PyVal))
    (gs : List Nat) : List (List PyVal) :=
  gs.foldl (fun acc goff => wmmaLaneFold NC goff (S goff) acc (List.range WT)) o

/-- The accumulation loops of wmma_helper over the output seeded from C
(range(0, warp_size, WARP_THREADS) is the multiples of WARP_THREADS below
warp_size, using the asserted divisibility). -/
def wmmaLoop (WT K NC ws : Nat) (aE bE : List (List PyVal) → Nat → Nat → Nat → PyVal)
    (cmap : Nat → Nat → Nat × Nat) (A B out0 : List (List PyVal)) : List (List PyVal) :=
  wmmaGoffFold WT NC
    (fun goff lane elem => wmmaDot K aE bE A B (cmap lane elem).1 (cmap lane elem).2 goff)
    out0 ((List.range (ws / WT)).map (fun g => g * WT))

/-- The wmma_helper function from the source: check the per-thread element
counts, the flattened totals, and the warp grouping (the source asserts);
seed the output as a copy of C; accumulate every position's dot product. -/
def wmma_helper (WT K NA NB NC ws : Nat)
    (aE bE : List (List PyVal) → Nat → Nat → Nat → PyVal)
    (cmap : Nat → Nat → Nat × Nat) (A B C : List (List PyVal)) :
    Except MemErr (List (List PyVal)) :=
  if A.length = NA ∧ B.length = NB ∧ C.length = NC ∧
     A.flatten.length = NA * ws ∧ B.flatten.length = NB * ws ∧ C.flatten.length = NC * ws ∧
     0 < ws ∧ ws % WT = 0 then
    Except.ok (wmmaLoop WT K NC ws aE bE cmap A B ((List.range NC).map (fun e => C.getD e [])))
  else Except.error MemErr.AssertionFailed

/-- Metal layout addressing for both A and B (a_b_elem in the source): row
major, 2 elements on 32 threads. -/
def metal_a_b_elem (x : List (List PyVal)) (i j goff : Nat) : PyVal :=
  (x.getD (i % 2) []).getD (goff + (i / 2) % 2 + (j % 4) * 2 + (i / 4) * 8 + (j / 4) * 16)
    (PyVal.vint 0)

/-- Metal layout output map (c_map in the source): lane and element index to
the (row, col) of the C/D tile. -/
def metal_c_map (lane elem : Nat) : Nat × Nat :=
  (elem + (lane % 2) * 2 + ((lane / 8) % 2) * 4, (lane / 2) % 4 + (lane / 16) * 4)

/-- HIP layout addressing for A (a_elem in the source): column major, 16
elements on 32 threads; the in-lambda duplication assert is modelled by the
separate hipDupOK precondition below. -/
def hip_a_elem (x : List (List PyVal)) (i j goff : Nat) : PyVal :=
  (x.getD i []).getD (goff + j) (PyVal.vint 0)

/-- HIP layout addressing for B (b_elem in the source): the transpose of
the A addressing. -/
def hip_b_elem (x : List (List PyVal)) (i j goff : Nat) : PyVal := hip_a_elem x j i goff

/-- HIP layout output map (c_map in the source). -/
def hip_c_map (lane elem : Nat) : Nat × Nat := (lane % 16, lane / 16 + elem * 2)

/-- The duplication assert from the HIP a_elem (x[i][goff+j] must equal
x[i][goff+j+16] under Python ==, so a NaN element never satisfies it),
checked over every access the loops perform: the source asserts lazily
inside a_elem and fails at the first violated access; both formulations
fail exactly when some performed access violates duplication. -/
def hipDupOK (x : List (List PyVal)) (ws : Nat) : Bool :=
  (List.range (ws / 32)).all (fun g =>
    (List.range 16).all (fun i =>
      (List.range 16).all (fun j =>
        pvEqB ((x.getD i []).getD (g * 32 + j) (PyVal.vint 0))
          ((x.getD i []).getD (g * 32 + j + 16) (PyVal.vint 0)))))

/-- The Metal tensor-core instantiation: wmma_helper(32, 8, 2, 2, 2) with
the shared row-major A/B addressing and output map. -/
def metalWMMA (A B C : List (List PyVal)) (ws : Nat) : Except MemErr (List (List PyVal)) :=
  wmma_helper 32 8 2 2 2 ws metal_a_b_elem metal_a_b_elem metal_c_map A B C

/-- The HIP tensor-core instantiation: wmma_helper(32, 16, 16, 16, 8) with
column-major A, transposed-A B, and the lane-half duplication assert. -/
def hipWMMA (A B C : List (List PyVal)) (ws : Nat) : Except MemErr (List (List PyVal)) :=
  if hipDupOK A ws ∧ hipDupOK B ws then
    wmma_helper 32 16 16 16 8 ws hip_a_elem hip_b_elem hip_c_map A B C
  else Except.error MemErr.AssertionFailed

/-- Value at output row elem and lane position pos of a tensor-core operand
or output (Python out-of-range reads surface as a junk 0 here; the bounds
hypotheses of the lemmas keep the reads in range). -/
def wmmaVal (o : List (List PyVal)) (e p : Nat) : PyVal :=
  (o.getD e []).getD p (PyVal.vint 0)

/-! ### The program interpreter (PythonProgram.__call__) -/

/-- The closed enumeration of uop kinds handled by the interpreter. -/
inductive UOpK where
  | STORE : UOpK
  | ENDLOOP : UOpK
  | BARRIER : UOpK
  | IF : UOpK
  | ENDIF : UOpK
  | DEFINE_GLOBAL : UOpK
  | DEFINE_LOCAL : UOpK
  | SPECIAL : UOpK
  | CONST : UOpK
  | DEFINE_ACC : UOpK
  | LOOP : UOpK
  | CAST : UOpK
  | LOAD : UOpK
  | PHI : UOpK
  | GEP : UOpK
  | WMMA : UOpK
  | ALU : UOpK
deriving DecidableEq, Repr

/-- Hardware-variant tag of a WMMA instruction: the two recognized prefixes
and anything else (which the source rejects). -/
inductive WTag where
  | metal : WTag
  | hip : WTag
  | other : WTag
deriving DecidableEq, Repr

/-- The opaque per-kind instruction argument. -/
inductive UArg where
  | none : UArg
  | cval : PyVal → UArg
  | localSize : Nat → UArg
  | special : Nat → Char → UArg
  | gep : Nat → UArg
  | wmma : WTag → UArg
  | alu : AluOp → UArg
deriving DecidableEq, Repr

/-- One instruction: kind, optional result dtype, operand positions,
argument — the decoded (uop, dtype, idp, arg) tuple of the source. -/
structure Inst where
  uop : UOpK
  dtype : Option MDType
  idp : List Nat
  arg : UArg

/-- A runtime object held in the Value Table: a per-lane scalar, a buffer
reference, or a Python list of sub-objects (per-lane lists, vector
channels, coordinate pairs). -/
inductive PyTree where
  | val : PyVal → PyTree
  | buf : Nat → PyTree
  | node : List PyTree → PyTree

/-- Interpreter failure kinds: keyError a Value/Type Table miss, typeError
a Python-level type misuse, assertFail a source assert, outOfBounds an
IndexError, convFail a dtype conversion failure, aluFail an exec_alu
failure, unimplementedHW the unrecognized tensor-core tag, and
consistencyFault the final assert i in ul (InternalConsistencyFault). -/
inductive RErr where
  | keyError : RErr
  | typeError : RErr
  | assertFail : RErr
  | outOfBounds : RErr
  | convFail : ConvErr → RErr
  | aluFail : AluError → RErr
  | unimplementedHW : RErr
  | consistencyFault : RErr
deriving DecidableEq, Repr

/-- MemErr failures surfaced through the interpreter. -/
def memErrTo (e : MemErr) : RErr :=
  match e with
  | MemErr.OutOfBounds => RErr.outOfBounds
  | MemErr.AssertionFailed => RErr.assertFail

/-- Interpreter state for one global-index iteration: the buffer heap
(globals then locals), the Value Table ul, the Type Table dl, the remaining
unbound buffer arguments, the instruction pointer, and the recorded
loop-end jump targets. -/
structure IState where
  heap : List (List PyVal)
  ul : Nat → Option PyTree
  dl : Nat → Option MDType
  pbufs : List Nat
  iptr : Nat
  loop_ends : Nat → Option Nat

/-- Pointwise update of a table. -/
def updO {α : Type} (f : Nat → Option α) (k : Nat) (v : Option α) : Nat → Option α :=
  fun n => if n = k then v else f n

/-- The void_ops set of the source: kinds that leave no Value Table entry. -/
def isVoid (u : UOpK) : Bool :=
  u = UOpK.STORE ∨ u = UOpK.ENDLOOP ∨ u = UOpK.BARRIER ∨ u = UOpK.IF ∨ u = UOpK.ENDIF

/-- The operand gather [ul[v] for v in idp if uops[v][0] not in void_ops]:
an out-of-range operand position is an IndexError, a missing Value Table
entry a KeyError. -/
def gather (prog : List Inst) (ul : Nat → Option PyTree) : List Nat → Except RErr (List PyTree)
  | [] => Except.ok []
  | v :: rest =>
      match prog.get? v with
      | Option.none => Except.error RErr.outOfBounds
      | some inst =>
          if isVoid inst.uop then gather prog ul rest
          else
            match ul v with
            | Option.none => Except.error RErr.keyError
            | some x =>
                match gather prog ul rest with
                | Except.error e => Except.error e
                | Except.ok xs => Except.ok (x :: xs)

/-- The dtype gather [dl[v] for v in idp if uops[v][0] not in void_ops]. -/
def gatherD (prog : List Inst) (dl : Nat → Option MDType) : List Nat → Except RErr (List MDType)
  | [] => Except.ok []
  | v :: rest =>
      match prog.get? v with
      | Option.none => Except.error RErr.outOfBounds
      | some inst =>
          if isVoid inst.uop then gatherD prog dl rest
          else
            match dl v with
            | Option.none => Except.error RErr.keyError
            | some d =>
                match gatherD prog dl rest with
                | Except.error e => Except.error e
                | Except.ok ds => Except.ok (d :: ds)

/-- Python indexing obj[k] on a runtime object: lists index, scalars and
buffers are not subscriptable. -/
def PyTree.index (t : PyTree) (k : Nat) : Except RErr PyTree :=
  match t with
  | PyTree.node l =>
      match l.get? k with
      | some x => Except.ok x
      | Option.none => Except.error RErr.outOfBounds
  | _ => Except.error RErr.typeError

/-- View a runtime object as a Python list. -/
def PyTree.asNode : PyTree → Except RErr (List PyTree)
  | PyTree.node l => Except.ok l
  | _ => Except.error RErr.typeError

/-- View a runtime object as a scalar value. -/
def PyTree.asVal : PyTree → Except RErr PyVal
  | PyTree.val v => Except.ok v
  | _ => Except.error RErr.typeError

/-- View a per-lane list as buffer contents (resolving references through
the heap). -/
def lanesBufs (heap : List (List PyVal)) (t : PyTree) : Except RErr (List (List PyVal)) :=
  match t.asNode with
  | Except.error e => Except.error e
  | Except.ok l =>
      mapExcept (fun x =>
        match x with
        | PyTree.buf id => Except.ok (heap.getD id [])
        | _ => Except.error RErr.typeError) l

/-- View a per-lane list as buffer ids. -/
def lanesBufIds (t : PyTree) : Except RErr (List Nat) :=
  match t.asNode with
  | Except.error e => Except.error e
  | Except.ok l =>
      mapExcept (fun x =>
        match x with
        | PyTree.buf id => Except.ok id
        | _ => Except.error RErr.typeError) l

/-- View a per-lane list as integer offsets (Python accepts bools too). -/
def lanesInts (t : PyTree) : Except RErr (List Int) :=
  match t.asNode with
  | Except.error e => Except.error e
  | Except.ok l =>
      mapExcept (fun x =>
        match x with
        | PyTree.val v =>
            (match v.asNum with
             | Sum.inl n => Except.ok n
             | Sum.inr _ => Except.error RErr.typeError)
        | _ => Except.error RErr.typeError) l

/-- View a per-lane list as scalar values. -/
def lanesVals (t : PyTree) : Except RErr (List PyVal) :=
  match t.asNode with
  | Except.error e => Except.error e
  | Except.ok l => mapExcept PyTree.asVal l

/-- View a WMMA operand as a matrix (rows of per-lane values). -/
def asMatrix (t : PyTree) : Except RErr (List (List PyVal)) :=
  match t.asNode with
  | Except.error e => Except.error e
  | Except.ok rows => mapExcept lanesVals rows

/-- Wrap a matrix back into a runtime object. -/
def ofMatrix (m : List (List PyVal)) : PyTree :=
  PyTree.node (m.map (fun r => PyTree.node (r.map PyTree.val)))

/-- Loop-variable comparison ul[i][0] == inp[1][0]: numeric equality on
scalars; comparing non-scalars yields False (as Python == across types). -/
def pyEqTree (a b : PyTree) : Bool :=
  match a, b with
  | PyTree.val v, PyTree.val w => pvEqB v w
  | _, _ => false

/-- The zero element a fresh local buffer is filled with, per dtype. -/
def zeroOf (d : MDType) : PyVal :=
  if dtypes.is_float d then PyVal.vfloat (PyFloat.fin 0)
  else if dtypes.is_bool d then PyVal.vbool false
  else PyVal.vint 0

/-- Write one element through a buffer reference into the heap. -/
def heapStore (heap : List (List PyVal)) (bid : Nat) (i : Int) (v : PyVal) :
    Except RErr (List (List PyVal)) :=
  match _store (heap.getD bid []) i v with
  | Except.ok m2 => Except.ok (heap.set bid m2)
  | Except.error e => Except.error (memErrTo e)

/-- Sequential per-lane scalar stores (the zip loop of the scalar and
vector store branches). -/
def storeLanes (heap : List (List PyVal)) :
    List (Nat × Int × PyVal) → Except RErr (List (List PyVal))
  | [] => Except.ok heap
  | (bid, off, v) :: rest =>
      match heapStore heap bid off v with
      | Except.error e => Except.error e
      | Except.ok heap2 => storeLanes heap2 rest

/-- Sequential per-lane image stores with the in-range assertion. -/
def storeImageLanes (heap : List (List PyVal)) (H W : Nat) (ch : Nat) :
    List (Nat × Int × Int × PyVal) → Except RErr (List (List PyVal))
  | [] => Except.ok heap
  | (bid, ox, oy, v) :: rest =>
      match imageStoreLane (heap.getD bid []) H W ox oy ch v with
      | Except.error e => Except.error (memErrTo e)
      | Except.ok m2 => storeImageLanes (heap.set bid m2) H W ch rest

/-- Python zip over three lists (stops at the shortest). -/
def zip3 {α β γ : Type} : List α → List β → List γ → List (α × β × γ)
  | a :: as_, b :: bs, c :: cs => (a, b, c) :: zip3 as_ bs cs
  | _, _, _ => []

/-- All elements equal (the all_same helper from tinygrad.helpers). -/
def all_same (l : List Nat) : Bool :=
  match l with
  | [] => true
  | x :: rest => rest.all (fun y => y = x)

/-- Per-lane image loads of one channel. -/
def loadImageLanes (heap : List (List PyVal)) (H W : Nat) (ch : Nat) :
    List (Nat × Int × Int) → Except RErr (List PyTree)
  | [] => Except.ok []
  | (bid, ox, oy) :: rest =>
      match imageLoadLane (heap.getD bid []) H W ox oy ch with
      | Except.error e => Except.error (memErrTo e)
      | Except.ok v =>
          match loadImageLanes heap H W ch rest with
          | Except.error e => Except.error e
          | Except.ok vs => Except.ok (PyTree.val v :: vs)

/-- Build the LoadInp of the standalone load function from the gathered
operand objects (buffer lanes, offset lanes, optional gate and default
lanes), mirroring the len(inp) == 4 test. -/
def buildLoadInp (heap : List (List PyVal)) (ops : List PyTree) : Except RErr LoadInp :=
  match ops with
  | [b, x] =>
      (match lanesBufs heap b, lanesInts x with
       | Except.ok ms, Except.ok xs => Except.ok (LoadInp.ungated ms xs)
       | Except.error e, _ => Except.error e
       | _, Except.error e => Except.error e)
  | [b, x, g, d] =>
      (match lanesBufs heap b, lanesInts x, lanesVals g, lanesVals d with
       | Except.ok ms, Except.ok xs, Except.ok gs, Except.ok ds =>
           Except.ok (LoadInp.gated ms xs gs ds)
       | Except.error e, _, _, _ => Except.error e
       | _, Except.error e, _, _ => Except.error e
       | _, _, Except.error e, _ => Except.error e
       | _, _, _, Except.error e => Except.error e)
  | _ => Except.error RErr.typeError

/-- Run the standalone load and wrap the result lanes. -/
def runLoad (heap : List (List PyVal)) (ops : List PyTree) (j : Int) :
    Except RErr PyTree :=
  match buildLoadInp heap ops with
  | Except.error e => Except.error e
  | Except.ok inp =>
      match load inp j with
      | Except.error e => Except.error (memErrTo e)
      | Except.ok vs => Except.ok (PyTree.node (vs.map PyTree.val))

/-- For the vector load branch: the per-channel operand list
[inp[r][j] if dtp[r].count > 1 else inp[r] for r in range(len(inp))]. -/
def channelOps (inp : List PyTree) (dtp : List MDType) (j : Nat) :
    Except RErr (List PyTree) :=
  mapExcept (fun rv =>
      match rv with
      | (r, t) =>
          if 1 < (dtp.getD r dtypes.int32).count then t.index j else Except.ok t)
    ((List.range inp.length).zip inp)

/-- The STORE branch of the interpreter: gated stores are rejected, image
dtypes assert 4 channels and in-range coordinates, vector dtypes overlay
the channel stride, scalars store one element per lane. -/
def stepStore (heap : List (List PyVal)) (inp : List PyTree) (dtp : List MDType) :
    Except RErr (List (List PyVal)) :=
  if 3 < inp.length then Except.error RErr.assertFail
  else
    match dtp with
    | [] => Except.error RErr.outOfBounds
    | d0 :: _ =>
        match d0.ishape with
        | some hw =>
            -- image store
            if (dtp.getD 2 dtypes.int32).count ≠ 4 then Except.error RErr.assertFail
            else
              (match inp with
               | [b, ixy, v] =>
                   (match lanesBufIds b, ixy.index 0, ixy.index 1, v.asNode with
                    | Except.ok bids, Except.ok xt, Except.ok yt, Except.ok chans =>
                        (match lanesInts xt, lanesInts yt with
                         | Except.ok xs, Except.ok ys =>
                             -- for j, val in enumerate(inp[2])
                             (List.range chans.length).foldlM (fun h j =>
                               match lanesVals (chans.getD j (PyTree.node [])) with
                               | Except.error e => Except.error e
                               | Except.ok vs =>
                                   storeImageLanes h hw.1 hw.2 j
                                     ((zip3 bids (xs.zip ys) vs).map
                                       (fun t => (t.1, t.2.1.1, t.2.1.2, t.2.2)))) heap
                         | Except.error e, _ => Except.error e
                         | _, Except.error e => Except.error e)
                    | Except.error e, _, _, _ => Except.error e
                    | _, Except.error e, _, _ => Except.error e
                    | _, _, Except.error e, _ => Except.error e
                    | _, _, _, Except.error e => Except.error e)
               | _ => Except.error RErr.outOfBounds)
        | Option.none =>
            if 1 < (dtp.getD 2 dtypes.int32).count then
              -- vector store: per channel j, store at o + j
              (match inp with
               | [b, x, v] =>
                   (match lanesBufIds b, lanesInts x, v.asNode with
                    | Except.ok bids, Except.ok xs, Except.ok chans =>
                        (List.range chans.length).foldlM (fun h j =>
                          match lanesVals (chans.getD j (PyTree.node [])) with
                          | Except.error e => Except.error e
                          | Except.ok vs =>
                              storeLanes h ((zip3 bids xs vs).map
                                (fun t => (t.1, t.2.1 + (j : Int), t.2.2)))) heap
                    | Except.error e, _, _ => Except.error e
                    | _, Except.error e, _ => Except.error e
                    | _, _, Except.error e => Except.error e)
               | _ => Except.error RErr.outOfBounds)
            else
              (match inp with
               | [b, x, v] =>
                   (match lanesBufIds b, lanesInts x, lanesVals v with
                    | Except.ok bids, Except.ok xs, Except.ok vs =>
                        storeLanes heap (zip3 bids xs vs)
                    | Except.error e, _, _ => Except.error e
                    | _, Except.error e, _ => Except.error e
                    | _, _, Except.error e => Except.error e)
               | _ => Except.error RErr.outOfBounds)

/-- The LOAD branch of the interpreter: image loads build 4 channels with
out-of-range positions reading 0; vector loads run one gated/plain load per
channel with the channel index as both sub-operand selector and offset
shift; scalar loads run one. -/
def stepLoad (heap : List (List PyVal)) (dtype : MDType) (inp : List PyTree)
    (dtp : List MDType) : Except RErr PyTree :=
  match dtp with
  | [] => Except.error RErr.outOfBounds
  | d0 :: _ =>
      match d0.ishape with
      | some hw =>
          if dtype.count ≠ 4 then Except.error RErr.assertFail
          else
            (match inp with
             | b :: ixy :: _ =>
                 (match lanesBufIds b, ixy.index 0, ixy.index 1 with
                  | Except.ok bids, Except.ok xt, Except.ok yt =>
                      (match lanesInts xt, lanesInts yt with
                       | Except.ok xs, Except.ok ys =>
                           (match mapExcept (fun j =>
                               match loadImageLanes heap hw.1 hw.2 j
                                   (zip3 bids xs ys) with
                               | Except.error e => Except.error e
                               | Except.ok lanes => Except.ok (PyTree.node lanes))
                             (List.range 4) with
                            | Except.error e => Except.error e
                            | Except.ok chans => Except.ok (PyTree.node chans))
                       | Except.error e, _ => Except.error e
                       | _, Except.error e => Except.error e)
                  | Except.error e, _, _ => Except.error e
                  | _, Except.error e, _ => Except.error e
                  | _, _, Except.error e => Except.error e)
             | _ => Except.error RErr.outOfBounds)
      | Option.none =>
          if 1 < dtype.count then
            match mapExcept (fun j =>
                match channelOps inp dtp j with
                | Except.error e => Except.error e
                | Except.ok ops => runLoad heap ops (j : Int)) (List.range dtype.count) with
            | Except.error e => Except.error e
            | Except.ok chans => Except.ok (PyTree.node chans)
          else runLoad heap inp 0

/-- The WMMA branch: recognize the hardware tag and run the corresponding
layout of wmma_helper on the extracted matrices. -/
def stepWMMA (tag : WTag) (ws : Nat) (inp : List PyTree) : Except RErr PyTree :=
  match inp with
  | [a, b, c] =>
      (match asMatrix a, asMatrix b, asMatrix c with
       | Except.ok A, Except.ok B, Except.ok C =>
           (match tag with
            | WTag.metal =>
                (match metalWMMA A B C ws with
                 | Except.ok out => Except.ok (ofMatrix out)
                 | Except.error e => Except.error (memErrTo e))
            | WTag.hip =>
                (match hipWMMA A B C ws with
                 | Except.ok out => Except.ok (ofMatrix out)
                 | Except.error e => Except.error (memErrTo e))
            | WTag.other => Except.error RErr.unimplementedHW)
       | Except.error e, _, _ => Except.error e
       | _, Except.error e, _ => Except.error e
       | _, _, Except.error e => Except.error e)
  | _ => Except.error RErr.outOfBounds

/-- The ALU branch: assert equal lane counts, assert matching dtypes except
for comparisons and WHERE, then run exec_alu lane by lane over the zipped
operands. -/
def stepALU (op : AluOp) (dtype : MDType) (inp : List PyTree) (dtp : List MDType) :
    Except RErr PyTree :=
  match mapExcept PyTree.asNode inp with
  | Except.error e => Except.error e
  | Except.ok inps =>
      if ¬ all_same (inps.map List.length) then Except.error RErr.assertFail
      else if ¬ ((dtp.all (fun d => d = dtype)) ∨
          op = AluOp.CMPEQ ∨ op = AluOp.CMPLT ∨ op = AluOp.WHERE) then
        Except.error RErr.assertFail
      else
        let lanes := (inps.map List.length).foldr Nat.min
          ((inps.map List.length).getD 0 0)
        match mapExcept (fun j =>
            match mapExcept (fun l =>
                match l.getD j (PyTree.val (PyVal.vint 0)) with
                | PyTree.val v => Except.ok v
                | _ => Except.error RErr.typeError) inps with
            | Except.error e => Except.error e
            | Except.ok p =>
                (match exec_alu op dtype p with
                 | Except.ok r => Except.ok (PyTree.val r)
                 | Except.error e => Except.error (RErr.aluFail e)))
          (List.range lanes) with
        | Except.error e => Except.error e
        | Except.ok vs => Except.ok (PyTree.node vs)

/-- The non-void instruction dispatch. The result is inl of the updated
state when control falls through to the assert i in ul tail, and inr of a
finished state on the loop-exit path (the source continue that skips the
assert). The Type Table update dl[i] = dtype has already been applied to
the passed state. -/
def stepDispatch (prog : List Inst) (warp : List (List Nat)) (idxs : List Nat)
    (st : IState) (inst : Inst) (dtype : MDType) (inp : List PyTree) (dtp : List MDType) :
    Except RErr (Sum IState IState) :=
  let i := st.iptr
  let ws := warp.length
  match inst.uop with
  | UOpK.DEFINE_GLOBAL =>
      (match st.pbufs with
       | [] => Except.error RErr.outOfBounds
       | b0 :: rest =>
           Except.ok (Sum.inl { st with
             ul := updO st.ul i (some (PyTree.node (List.replicate ws (PyTree.buf b0)))),
             pbufs := rest }))
  | UOpK.DEFINE_LOCAL =>
      (match inst.arg with
       | UArg.localSize sz =>
           Except.ok (Sum.inl { st with
             heap := st.heap ++ [List.replicate sz (zeroOf dtype)],
             ul := updO st.ul i
               (some (PyTree.node (List.replicate ws (PyTree.buf st.heap.length)))) })
       | _ => Except.error RErr.typeError)
  | UOpK.SPECIAL =>
      (match inst.arg with
       | UArg.special ax c =>
           if c = 'g' then
             Except.ok (Sum.inl { st with
               ul := updO st.ul i (some (PyTree.node (List.replicate ws
                 (PyTree.val (PyVal.vint (Int.ofNat (idxs.getD (2 - ax) 0))))))) })
           else if c = 'l' then
             Except.ok (Sum.inl { st with
               ul := updO st.ul i (some (PyTree.node (warp.map (fun x =>
                 PyTree.val (PyVal.vint (Int.ofNat (x.getD (2 - ax) 0))))))) })
           else Except.ok (Sum.inl st)
       | _ => Except.error RErr.typeError)
  | UOpK.CONST =>
      (match inst.arg with
       | UArg.cval v =>
           (match dtypes.as_type v dtype with
            | Except.error e => Except.error (RErr.convFail e)
            | Except.ok cv =>
                if 1 < dtype.count then
                  Except.ok (Sum.inl { st with
                    ul := updO st.ul i (some (PyTree.node (List.replicate dtype.count
                      (PyTree.node (List.replicate ws (PyTree.val cv)))))) })
                else
                  Except.ok (Sum.inl { st with
                    ul := updO st.ul i
                      (some (PyTree.node (List.replicate ws (PyTree.val cv)))) }))
       | _ => Except.error RErr.typeError)
  | UOpK.DEFINE_ACC =>
      (match inst.arg with
       | UArg.cval v =>
           if 1 < dtype.count then
             Except.ok (Sum.inl { st with
               ul := updO st.ul i (some (PyTree.node (List.replicate dtype.count
                 (PyTree.node (List.replicate ws (PyTree.val v)))))) })
           else
             Except.ok (Sum.inl { st with
               ul := updO st.ul i
                 (some (PyTree.node (List.replicate ws (PyTree.val v)))) })
       | _ => Except.error RErr.typeError)
  | UOpK.LOOP =>
      (match st.ul i with
       | Option.none =>
           (match inp with
            | a0 :: _ =>
                (match a0.index 0 with
                 | Except.error e => Except.error e
                 | Except.ok x0 =>
                     Except.ok (Sum.inl { st with
                       ul := updO st.ul i (some (PyTree.node (List.replicate ws x0))) }))
            | [] => Except.error RErr.outOfBounds)
       | some cur =>
           (match cur.asNode with
            | Except.error e => Except.error e
            | Except.ok lanes =>
                match mapExcept (fun t =>
                    match t with
                    | PyTree.val v => Except.ok (PyTree.val (pvAdd v (PyVal.vint 1)))
                    | _ => Except.error RErr.typeError) lanes with
                | Except.error e => Except.error e
                | Except.ok lanes2 =>
                    match lanes2 with
                    | [] => Except.error RErr.outOfBounds
                    | l0 :: _ =>
                        match inp with
                        | _ :: b :: _ =>
                            (match b.index 0 with
                             | Except.error e => Except.error e
                             | Except.ok b0 =>
                                 if pyEqTree l0 b0 then
                                   match st.loop_ends i with
                                   | Option.none => Except.error RErr.keyError
                                   | some e =>
                                       Except.ok (Sum.inr { st with
                                         ul := updO st.ul i Option.none,
                                         iptr := e + 1 })
                                 else
                                   Except.ok (Sum.inl { st with
                                     ul := updO st.ul i (some (PyTree.node lanes2)) }))
                        | _ => Except.error RErr.outOfBounds))
  | UOpK.CAST =>
      if 1 < dtype.count then
        Except.ok (Sum.inl { st with ul := updO st.ul i (some (PyTree.node inp)) })
      else
        (match inp with
         | [] => Except.error RErr.outOfBounds
         | x :: _ =>
             (match x.asNode with
              | Except.error _ => Except.ok (Sum.inl { st with ul := updO st.ul i (some x) })
              | Except.ok lanes =>
                  match mapExcept (fun t =>
                      match t with
                      | PyTree.val v =>
                          (match dtypes.as_type v dtype with
                           | Except.ok w => Except.ok (PyTree.val w)
                           | Except.error _ => Except.error RErr.typeError)
                      | _ => Except.error RErr.typeError) lanes with
                  | Except.ok lanes2 =>
                      Except.ok (Sum.inl { st with
                        ul := updO st.ul i (some (PyTree.node lanes2)) })
                  | Except.error _ =>
                      Except.ok (Sum.inl { st with ul := updO st.ul i (some x) })))
  | UOpK.LOAD =>
      (match stepLoad st.heap dtype inp dtp with
       | Except.error e => Except.error e
       | Except.ok t => Except.ok (Sum.inl { st with ul := updO st.ul i (some t) }))
  | UOpK.PHI =>
      (match inp with
       | a :: b :: _ =>
           (match a.asNode, b.asNode with
            | Except.ok l0, Except.ok l1 =>
                if l0.length ≤ l1.length then
                  let merged := PyTree.node (l1.take l0.length)
                  (match (inst.idp.filter
                      (fun v => ¬ isVoid ((prog.getD v
                        ⟨UOpK.BARRIER, Option.none, [], UArg.none⟩).uop))).head? with
                   | some tgt =>
                       Except.ok (Sum.inl { st with
                         ul := updO (updO st.ul tgt (some merged)) i (some merged) })
                   | Option.none => Except.error RErr.outOfBounds)
                else Except.error RErr.outOfBounds
            | Except.error e, _ => Except.error e
            | _, Except.error e => Except.error e)
       | _ => Except.error RErr.outOfBounds)
  | UOpK.GEP =>
      (match inst.arg with
       | UArg.gep k =>
           (match inp with
            | x :: _ =>
                (match x.index k with
                 | Except.error e => Except.error e
                 | Except.ok y => Except.ok (Sum.inl { st with ul := updO st.ul i (some y) }))
            | [] => Except.error RErr.outOfBounds)
       | _ => Except.error RErr.typeError)
  | UOpK.WMMA =>
      (match inst.arg with
       | UArg.wmma tag =>
           (match stepWMMA tag ws inp with
            | Except.error e => Except.error e
            | Except.ok t => Except.ok (Sum.inl { st with ul := updO st.ul i (some t) }))
       | _ => Except.error RErr.typeError)
  | UOpK.ALU =>
      (match inst.arg with
       | UArg.alu op =>
           (match stepALU op dtype inp dtp with
            | Except.error e => Except.error e
            | Except.ok t => Except.ok (Sum.inl { st with ul := updO st.ul i (some t) }))
       | _ => Except.error RErr.typeError)
  | _ => Except.error RErr.typeError

/-- One iteration of the while loop of PythonProgram.__call__: fetch the
instruction at the pointer (a pointer past the program halts, returning
none), gather operands, dispatch, and for non-void instructions record the
dtype, check the Value Table entry (InternalConsistencyFault when missing)
and advance. -/
def step (prog : List Inst) (warp : List (List Nat)) (idxs : List Nat) (st : IState) :
    Except RErr (Option IState) :=
  match prog.get? st.iptr with
  | Option.none => Except.ok Option.none
  | some inst =>
      match gather prog st.ul inst.idp with
      | Except.error e => Except.error e
      | Except.ok inp =>
          match gatherD prog st.dl inst.idp with
          | Except.error e => Except.error e
          | Except.ok dtp =>
              if inst.uop = UOpK.STORE then
                match stepStore st.heap inp dtp with
                | Except.error e => Except.error e
                | Except.ok heap2 =>
                    Except.ok (some { st with heap := heap2, iptr := st.iptr + 1 })
              else if inst.uop = UOpK.ENDLOOP then
                match inst.idp with
                | [] => Except.error RErr.outOfBounds
                | p0 :: _ =>
                    Except.ok (some { st with
                      loop_ends := updO st.loop_ends p0 (some st.iptr),
                      iptr := p0 })
              else if inst.uop = UOpK.BARRIER ∨ inst.uop = UOpK.IF ∨ inst.uop = UOpK.ENDIF then
                Except.ok (some { st with iptr := st.iptr + 1 })
              else
                match inst.dtype with
                | Option.none => Except.error RErr.assertFail
                | some dtype =>
                    match stepDispatch prog warp idxs
                        { st with dl := updO st.dl st.iptr (some dtype) }
                        inst dtype inp dtp with
                    | Except.error e => Except.error e
                    | Except.ok (Sum.inr s) => Except.ok (some s)
                    | Except.ok (Sum.inl s) =>
                        match s.ul st.iptr with
                        | some _ => Except.ok (some { s with iptr := st.iptr + 1 })
                        | Option.none => Except.error RErr.consistencyFault

/-- Exactly n continuing steps (none when any step fails or halts early). -/
def nstepsO (prog : List Inst) (warp : List (List Nat)) (idxs : List Nat) :
    Nat → IState → Option IState
  | 0, st => some st
  | n + 1, st =>
      match step prog warp idxs st with
      | Except.ok (some st2) => nstepsO prog warp idxs n st2
      | _ => Option.none

/-- Reachability in the interpreter's small-step semantics. -/
def Steps (prog : List Inst) (warp : List (List Nat)) (idxs : List Nat)
    (s s2 : IState) : Prop :=
  ∃ n, nstepsO prog warp idxs n s = some s2

/-- Run the while loop to completion under a fuel bound (the source loop
can diverge, e.g. a loop whose variable starts past its end bound; fuel
exhaustion is reported as an error distinct from program failures). -/
def runIter (prog : List Inst) (warp : List (List Nat)) (idxs : List Nat) :
    Nat → IState → Except RErr (Option IState)
  | 0, _ => Except.ok Option.none
  | n + 1, st =>
      match step prog warp idxs st with
      | Except.error e => Except.error e
      | Except.ok Option.none => Except.ok (some st)
      | Except.ok (some st2) => runIter prog warp idxs n st2

/-- Cartesian product of range a, range b, range c as coordinate triples,
in itertools.product order. -/
def prodTriples (a b c : Nat) : List (List Nat) :=
  ((List.range a).map (fun i =>
    ((List.range b).map (fun j =>
      ((List.range c).map (fun k => [i, j, k])))).flatten)).flatten

/-- Fresh per-iteration state: the heap holds only the global buffers, the
Value and Type Tables and the loop-end map are empty, every global buffer
is still unbound, and the pointer is at 0. -/
def initState (globals : List (List PyVal)) : IState :=
  ⟨globals, fun _ => Option.none, fun _ => Option.none,
    List.range globals.length, 0, fun _ => Option.none⟩

/-- The outer loop over global indices: each iteration starts from a fresh
state over the carried global buffers and drops its local buffers at the
end (they are re-allocated each iteration). -/
def runAll (prog : List Inst) (warp : List (List Nat)) (fuel : Nat) :
    List (List Nat) → List (List PyVal) → Except RErr (List (List PyVal))
  | [], globals => Except.ok globals
  | idx :: rest, globals =>
      match runIter prog warp idx fuel (initState globals) with
      | Except.error e => Except.error e
      | Except.ok Option.none => Except.error RErr.keyError
      | Except.ok (some stf) => runAll prog warp fuel rest (stf.heap.take globals.length)

/-- The PythonProgram.__call__ entry point (timing aside): global and local
sizes iterate reversed, the warp is the product of the reversed local
sizes, and the result is the final contents of the global buffers. -/
def pycall (prog : List Inst) (bufs : List (List PyVal))
    (gsz lsz : Nat × Nat × Nat) (fuel : Nat) : Except RErr (List (List PyVal)) :=
  runAll prog (prodTriples lsz.2.2 lsz.2.1 lsz.1) fuel
    (prodTriples gsz.2.2 gsz.2.1 gsz.1) bufs

/-- State after the first visit of a LOOP instruction at the current
pointer: the loop variable is bound to the first lane of the start operand,
replicated over the warp, and control falls into the body. -/
def loopFirstState (st : IState) (i0 : Nat) (dt : MDType) (x0 : PyTree) (ws : Nat) : IState :=
  { st with
    dl := updO st.dl i0 (some dt),
    ul := updO st.ul i0 (some (PyTree.node (List.replicate ws x0))),
    iptr := i0 + 1 }

/-- State after an ENDLOOP step at position e targeting the loop at i0: the
jump target is recorded and the pointer returns to the loop header. -/
def endloopState (st : IState) (i0 e : Nat) : IState :=
  { st with loop_ends := updO st.loop_ends i0 (some e), iptr := i0 }

/-- State after a revisit of the LOOP header that continues into the body:
every lane of the loop variable was incremented from v to v + 1. -/
def loopAgainState (st : IState) (i0 : Nat) (dt : MDType) (v : Int) (ws : Nat) : IState :=
  { st with
    dl := updO st.dl i0 (some dt),
    ul := updO st.ul i0 (some (PyTree.node (List.replicate ws
      (PyTree.val (PyVal.vint (v + 1)))))),
    iptr := i0 + 1 }

/-- State after the loop-exit revisit: the loop variable entry is deleted
and the pointer jumps past the recorded matching loop-end. -/
def loopExitState (st : IState) (i0 : Nat) (dt : MDType) (e : Nat) : IState :=
  { st with
    dl := updO st.dl i0 (some dt),
    ul := updO st.ul i0 Option.none,
    iptr := e + 1 }

/-- The k-th body-entry state of a loop run: B 0 is the state after the
first LOOP visit; B (k+1) runs the abstract body transformer F from B k to
the matching ENDLOOP, performs the ENDLOOP back-edge, and re-enters the
body with the loop variable incremented to startv + k + 1. -/
def loopBodyIter (F : IState → IState) (i0 e : Nat) (dt : MDType) (ws : Nat)
    (startv : Int) (B0 : IState) : Nat → IState
  | 0 => B0
  | k + 1 =>
      loopAgainState (endloopState (F (loopBodyIter F i0 e dt ws startv B0 k)) i0 e)
        i0 dt (startv + k) ws

/-- Projection of a step result onto the Value Table entry at a position. -/
def stepUlAt (r : Except RErr (Option IState)) (k : Nat) : Option PyTree :=
  match r with
  | Except.ok (some s) => s.ul k
  | _ => Option.none

/-- Projection of a step result onto the next state (junk initial state
when the step failed or halted). -/
def stepStateD (r : Except RErr (Option IState)) : IState :=
  match r with
  | Except.ok (some s) => s
  | _ => initState []

/-- Outer Python list length of a Value Table entry. -/
def entryOuterLen (t : Option PyTree) : Nat :=
  match t with
  | some (PyTree.node l) => l.length
  | _ => 0

/-- Length of the first nested Python list of a Value Table entry. -/
def entryNestedLen (t : Option PyTree) : Nat :=
  match t with
  | some (PyTree.node (PyTree.node l :: _)) => l.length
  | _ => 0

/-- A one-instruction program holding a single vector CONST of vector count
2 (a well-formed vector constant, used against the Value Table shape
claim). -/
def vecConstProg : List Inst :=
  [⟨UOpK.CONST, some ⟨DTClass.csint, 32, 2, Option.none⟩, [], UArg.cval (PyVal.vint 1)⟩]

/-- A minimal loop program: two int constants 0 and 2, a LOOP over them,
and its ENDLOOP (the loop body is empty). -/
def loopDemoProg : List Inst :=
  [⟨UOpK.CONST, some dtypes.int32, [], UArg.cval (PyVal.vint 0)⟩,
   ⟨UOpK.CONST, some dtypes.int32, [], UArg.cval (PyVal.vint 2)⟩,
   ⟨UOpK.LOOP, some dtypes.int32, [0, 1], UArg.none⟩,
   ⟨UOpK.ENDLOOP, Option.none, [2], UArg.none⟩]

/-- The state of loopDemoProg just before the LOOP instruction executes:
both constants are bound on a one-lane warp. -/
def loopDemoState : IState :=
  ⟨[],
   fun n => if n = 0 then some (PyTree.node [PyTree.val (PyVal.vint 0)])
     else if n = 1 then some (PyTree.node [PyTree.val (PyVal.vint 2)])
     else Option.none,
   fun n => if n = 0 then some dtypes.int32
     else if n = 1 then some dtypes.int32
     else Option.none,
   [], 2, fun _ => Option.none⟩

/-! ### Helper lemmas -/

/-- Setting a position at or past the length of a list is a no-op. -/
theorem list_set_oob {α : Type} (l : List α) (i : Nat) (a : α) (h : l.length ≤ i) :
    l.set i a = l := by
  induction l generalizing i with
  | nil => rfl
  | cons x xs ih =>
      cases i with
      | zero => exact absurd h (by simp)
      | succ n =>
          simp only [List.set_cons_succ]
          rw [ih n (by simpa using h)]

/-- Reading a just-set position returns the written value. -/
theorem list_getD_set_self {α : Type} (l : List α) (i : Nat) (a d : α) (h : i < l.length) :
    (l.set i a).getD i d = a := by
  induction l generalizing i with
  | nil => exact absurd h (by simp)
  | cons x xs ih =>
      cases i with
      | zero => rfl
      | succ n => exact ih n (by simpa using h)

/-- Reading any other position after a set returns the original value. -/
theorem list_getD_set_ne {α : Type} (l : List α) (i j : Nat) (a d : α) (h : j ≠ i) :
    (l.set i a).getD j d = l.getD j d := by
  induction l generalizing i j with
  | nil => rfl
  | cons x xs ih =>
      cases i with
      | zero =>
          cases j with
          | zero => exact absurd rfl h
          | succ m => rfl
      | succ n =>
          cases j with
          | zero => rfl
          | succ m => exact ih n m (fun hc => h (congrArg Nat.succ hc))

/-- Folding the highest-order accumulator over a list of types all equal to
the accumulator leaves it unchanged. -/
theorem ghoFoldConst (acc : MDType) (ts : List MDType) (h : ∀ t ∈ ts, t = acc) :
    ts.foldl (fun a u => if dtypes.rank a < dtypes.rank u then u else a) acc = acc := by
  induction ts with
  | nil => rfl
  | cons t rest ih =>
      have ht : t = acc := h t (List.mem_cons_self t rest)
      have hrest : ∀ u ∈ rest, u = acc := fun u hu => h u (List.mem_cons_of_mem t hu)
      rw [List.foldl_cons, ht, if_neg (lt_irrefl _)]
      exact ih hrest

/-- get_highest_order of a nonempty all-int32 list is int32. -/
theorem ghoAllInt32 (ts : List MDType) (h : ∀ t ∈ ts, t = dtypes.int32) (hne : ts ≠ []) :
    dtypes.get_highest_order ts = dtypes.int32 := by
  cases ts with
  | nil => exact absurd rfl hne
  | cons t rest =>
      have ht : t = dtypes.int32 := h t (List.mem_cons_self t rest)
      have hrest : ∀ u ∈ rest, u = dtypes.int32 := fun u hu => h u (List.mem_cons_of_mem t hu)
      simp only [dtypes.get_highest_order, ht]
      exact ghoFoldConst _ _ hrest

/-- A type list headed by t whose tail shares t's class is uniform. -/
theorem uniformOfConstClass (t : MDType) (ts : List MDType)
    (h : ∀ u ∈ ts, u.klass = t.klass) : dtypes.is_uniform_types (t :: ts) = true := by
  simp only [dtypes.is_uniform_types, List.all_eq_true, decide_eq_true_eq]
  exact h

/-! ### Claim C3: division semantics -/

/-- C3: for the division operation, an integer resolved dtype with a zero
divisor fails with InvalidOperands; a float resolved dtype with a zero
divisor returns NaN without failing; and integer division with a nonzero
divisor uses floor division. -/
theorem div_zero_and_floor_semantics (a b : Int) (f : PyFloat)
    (hb : b ≠ 0)
    (hlo : -2147483648 ≤ Int.fdiv a b) (hhi : Int.fdiv a b < 2147483648) :
    exec_alu AluOp.DIV dtypes.int32 [PyVal.vint a, PyVal.vint 0]
      = Except.error AluError.InvalidOperands ∧
    exec_alu AluOp.DIV dtypes.float32 [PyVal.vfloat f, PyVal.vfloat (PyFloat.fin 0)]
      = Except.ok (PyVal.vfloat PyFloat.nan) ∧
    exec_alu AluOp.DIV dtypes.int32 [PyVal.vint a, PyVal.vint b]
      = Except.ok (PyVal.vint (Int.fdiv a b)) := by
  refine ⟨?_, ?_, ?_⟩
  · simp [exec_alu, patch_p, dtypes.type, dtypes.is_bool, dtypes.get_highest_order, dtypes.rank,
      check_types, dtypes.is_uniform_types, opResult, dtypes.is_int, dtypes.is_float,
      dtypes.is_unsigned, PyVal.eqZero, dtypes.int32, convertTail]
  · simp [exec_alu, patch_p, dtypes.type, dtypes.is_bool, dtypes.get_highest_order, dtypes.rank,
      check_types, dtypes.is_uniform_types, opResult, dtypes.is_int, dtypes.is_float,
      dtypes.is_unsigned, PyVal.eqZero, dtypes.float32, dtypes.double, convertTail,
      dtypes.check_bounds, dtypes.as_type, PyVal.toQ]
  · simp [exec_alu, patch_p, dtypes.type, dtypes.is_bool, dtypes.get_highest_order, dtypes.rank,
      check_types, dtypes.is_uniform_types, opResult, dtypes.is_int, dtypes.is_float,
      dtypes.is_unsigned, PyVal.eqZero, dtypes.int32, convertTail, dtypes.check_bounds,
      dtypes.as_type, dtypes.intLo, dtypes.intHi, pvFloorDiv, pvArith, PyVal.asNum,
      hb, hlo, hhi]

/-- Witness for C3 at concrete inputs: 7 div 0 (int) fails, 7.0 div 0.0 is
NaN, 7 div 2 = 3 and -7 div 2 = -4 (floor division). -/
theorem div_zero_and_floor_semantics_witness :
    exec_alu AluOp.DIV dtypes.int32 [PyVal.vint 7, PyVal.vint 0]
      = Except.error AluError.InvalidOperands ∧
    exec_alu AluOp.DIV dtypes.float32 [PyVal.vfloat (PyFloat.fin 7), PyVal.vfloat (PyFloat.fin 0)]
      = Except.ok (PyVal.vfloat PyFloat.nan) ∧
    exec_alu AluOp.DIV dtypes.int32 [PyVal.vint 7, PyVal.vint 2]
      = Except.ok (PyVal.vint 3) ∧
    exec_alu AluOp.DIV dtypes.int32 [PyVal.vint (-7), PyVal.vint 2]
      = Except.ok (PyVal.vint (-4)) := by
  have h1 := div_zero_and_floor_semantics 7 2 (PyFloat.fin 7) (by decide) (by decide) (by decide)
  have h2 := div_zero_and_floor_semantics (-7) 2 (PyFloat.fin 7) (by decide) (by decide) (by decide)
  refine ⟨h1.1, h1.2.1, ?_, ?_⟩
  · rw [h1.2.2]
    have h3 : Int.fdiv 7 2 = 3 := by decide
    rw [h3]
  · rw [h2.2.2]
    have h4 : Int.fdiv (-7) 2 = -4 := by decide
    rw [h4]

/-! ### Claim C4: overflow upgrade policy -/

/-- C4: when the raw ALU result overflows the resolved dtype, exec_alu
upgrades the dtype exactly once (float to double, unsigned to ulong, signed
to long) and retries the conversion; if the converted result still
overflows the upgraded dtype it fails with OverflowAfterUpgrade, with no
second upgrade or retry. -/
theorem overflow_upgrade_once (arg : AluOp) (dtype0 : MDType) (pIn : List PyVal) (r : PyVal)
    (hW : arg ≠ AluOp.WHERE)
    (hchk : check_types (patch_p pIn dtype0).1 (patch_p pIn dtype0).2 = true)
    (hop : opResult arg (patch_p pIn dtype0).2 (patch_p pIn dtype0).1 = some r)
    (hov : dtypes.check_bounds r (patch_p pIn dtype0).2 = Except.error ConvErr.overflow) :
    exec_alu arg dtype0 pIn =
      (match dtypes.as_type r (upgradeDtype (patch_p pIn dtype0).2) with
       | Except.ok v => Except.ok v
       | Except.error ConvErr.overflow => Except.error AluError.OverflowAfterUpgrade
       | Except.error ConvErr.typeErr => Except.error AluError.TypeConversionError) ∧
    (dtypes.is_float (patch_p pIn dtype0).2 = true →
       upgradeDtype (patch_p pIn dtype0).2 = dtypes.double) ∧
    (dtypes.is_unsigned (patch_p pIn dtype0).2 = true →
       upgradeDtype (patch_p pIn dtype0).2 = dtypes.ulong) ∧
    (dtypes.is_float (patch_p pIn dtype0).2 = false →
       dtypes.is_unsigned (patch_p pIn dtype0).2 = false →
       dtypes.is_int (patch_p pIn dtype0).2 = true →
       upgradeDtype (patch_p pIn dtype0).2 = dtypes.long) := by
  refine ⟨?_, ?_, ?_, ?_⟩
  · simp only [exec_alu, if_neg hW]
    simp [hchk, hop, convertTail, hov]
  · intro h
    have hu : dtypes.is_unsigned (patch_p pIn dtype0).2 = false := by
      simp only [dtypes.is_float, decide_eq_true_eq] at h
      simp [dtypes.is_unsigned, h]
    simp [upgradeDtype, h]
  · intro h
    have hf : dtypes.is_float (patch_p pIn dtype0).2 = false := by
      simp only [dtypes.is_unsigned, decide_eq_true_eq] at h
      simp [dtypes.is_float, h]
    simp [upgradeDtype, hf, h]
  · intro hf hu hi
    simp [upgradeDtype, hf, hu, hi]

/-- Witness for C4: adding 1 to the largest int32 overflows int32 and is
represented after the single upgrade to the 64-bit signed type; adding two
huge values overflows even the upgraded type and fails with
OverflowAfterUpgrade. -/
theorem overflow_upgrade_once_witness :
    exec_alu AluOp.ADD dtypes.int32 [PyVal.vint 2147483647, PyVal.vint 1]
      = Except.ok (PyVal.vint 2147483648) ∧
    exec_alu AluOp.ADD dtypes.int32 [PyVal.vint 4611686018427387904, PyVal.vint 4611686018427387904]
      = Except.error AluError.OverflowAfterUpgrade := by
  have h1 := overflow_upgrade_once AluOp.ADD dtypes.int32
    [PyVal.vint 2147483647, PyVal.vint 1] (PyVal.vint 2147483648)
    (by decide) (by decide) (by decide) (by decide)
  have h2 := overflow_upgrade_once AluOp.ADD dtypes.int32
    [PyVal.vint 4611686018427387904, PyVal.vint 4611686018427387904]
    (PyVal.vint 9223372036854775808)
    (by decide) (by decide) (by decide) (by decide)
  refine ⟨?_, ?_⟩
  · rw [h1.1]; decide
  · rw [h2.1]; decide

/-! ### Claim C8: base-2 log on a non-float dtype -/

/-- Counterexample to C8 as stated: applying LOG2 with an integer resolved
dtype does not fail with InvalidOperands; the operation table yields NaN
(the same value as for a non-positive float input) and the failure comes
from converting NaN into the integer dtype. -/
theorem log2_nonfloat_counterexample :
    exec_alu AluOp.LOG2 dtypes.int32 [PyVal.vint 4]
      = Except.error AluError.TypeConversionError ∧
    exec_alu AluOp.LOG2 dtypes.int32 [PyVal.vint 4]
      ≠ Except.error AluError.InvalidOperands := by
  constructor
  · rfl
  · intro h
    exact absurd ((rfl : exec_alu AluOp.LOG2 dtypes.int32 [PyVal.vint 4]
      = Except.error AluError.TypeConversionError) ▸ h) (by decide)

/-- C8 amended: LOG2 with an integer resolved dtype produces NaN from the
operation table (for any integer operand, positive or not) and then fails
when that NaN is converted into the integer dtype: the failure is
TypeConversionError, not InvalidOperands. -/
theorem log2_nonfloat_conversion_failure (d : MDType) (n : Int)
    (hd : d = dtypes.int32 ∨ d = dtypes.long ∨ d = dtypes.uint32 ∨ d = dtypes.ulong) :
    exec_alu AluOp.LOG2 d [PyVal.vint n] = Except.error AluError.TypeConversionError := by
  rcases hd with h | h | h | h <;> subst h <;>
    simp [exec_alu, patch_p, dtypes.type, dtypes.is_bool, dtypes.get_highest_order, dtypes.rank,
      check_types, dtypes.is_uniform_types, opResult, dtypes.is_int, dtypes.is_float,
      dtypes.is_unsigned, dtypes.int32, dtypes.long, dtypes.uint32, dtypes.ulong,
      convertTail, dtypes.check_bounds, dtypes.as_type, PyVal.toQ]

/-- Witness for the amended C8 at a concrete positive int operand. -/
theorem log2_nonfloat_conversion_failure_witness :
    exec_alu AluOp.LOG2 dtypes.int32 [PyVal.vint 4]
      = Except.error AluError.TypeConversionError :=
  log2_nonfloat_conversion_failure dtypes.int32 4 (Or.inl rfl)

/-! ### Claim C10: WHERE validates arity and condition type only on the
condition-false branch -/

/-- C10: when the first WHERE operand converts to a true boolean, exec_alu
returns the second operand without failing, whatever the operand count (the
arity-3 and boolean-condition validation sits only on the condition-false
branch); with a false condition and fewer than three operands it fails with
InvalidOperands. -/
theorem where_true_skips_validation (cond : PyVal) (n : Int) (rest : List Int)
    (hc : cond.eqZero = false)
    (hlo : -2147483648 ≤ n) (hhi : n < 2147483648) :
    exec_alu AluOp.WHERE dtypes.int32 (cond :: PyVal.vint n :: rest.map PyVal.vint)
      = Except.ok (PyVal.vint n) ∧
    exec_alu AluOp.WHERE dtypes.int32 [PyVal.vbool false, PyVal.vint n]
      = Except.error AluError.InvalidOperands := by
  constructor
  · have hany : ((PyVal.vint n :: rest.map PyVal.vint).any
        (fun x => dtypes.is_bool (dtypes.type x))) = false := by
      rw [List.any_eq_false]
      intro x hx
      rcases List.mem_cons.mp hx with h | h
      · subst h; simp [dtypes.type, dtypes.is_bool, dtypes.int32]
      · rcases List.mem_map.mp h with ⟨m, _, rfl⟩
        simp [dtypes.type, dtypes.is_bool, dtypes.int32]
    have hall : ∀ t ∈ (PyVal.vint n :: rest.map PyVal.vint).map dtypes.type ++ [dtypes.int32],
        t = dtypes.int32 := by
      intro t ht
      rcases List.mem_append.mp ht with h | h
      · rcases List.mem_map.mp h with ⟨x, hx, rfl⟩
        rcases List.mem_cons.mp hx with h2 | h2
        · subst h2; rfl
        · rcases List.mem_map.mp h2 with ⟨m, _, rfl⟩; rfl
      · rw [List.mem_singleton.mp h]
    have hpatch : patch_p (PyVal.vint n :: rest.map PyVal.vint) dtypes.int32
        = (PyVal.vint n :: rest.map PyVal.vint, dtypes.int32) := by
      simp only [patch_p, hany, Bool.false_eq_true, if_false]
      rw [ghoAllInt32 _ hall (by simp)]
    have hchk : check_types (PyVal.vint n :: rest.map PyVal.vint) dtypes.int32 = true := by
      unfold check_types
      refine uniformOfConstClass _ _ ?_
      intro u hu
      rcases List.mem_append.mp hu with h | h
      · rcases List.mem_map.mp h with ⟨x, hx, rfl⟩
        rcases List.mem_map.mp hx with ⟨m, _, rfl⟩
        rfl
      · rw [List.mem_singleton.mp h]; rfl
    have hcond : dtypes.as_bool cond = PyVal.vbool true := by
      simp [dtypes.as_bool, hc]
    have e2 : opResult AluOp.WHERE dtypes.int32
        (PyVal.vbool true :: PyVal.vint n :: rest.map PyVal.vint) = some (PyVal.vint n) := by
      simp [opResult, PyVal.eqZero]
    have e3 : convertTail (PyVal.vint n) dtypes.int32 = Except.ok (PyVal.vint n) := by
      simp [convertTail, dtypes.check_bounds, dtypes.as_type, dtypes.int32, dtypes.intLo,
        dtypes.intHi, dtypes.is_unsigned, hlo, hhi]
    simp only [exec_alu, if_pos rfl, if_true, hpatch, hcond, List.getD_cons_zero,
      List.drop_succ_cons, List.drop_zero]
    rw [if_neg (not_not_intro hchk), e2]
    exact e3
  · simp [exec_alu, patch_p, dtypes.type, dtypes.is_bool, dtypes.get_highest_order, dtypes.rank,
      check_types, dtypes.is_uniform_types, opResult, dtypes.is_int, dtypes.is_float,
      dtypes.is_unsigned, PyVal.eqZero, dtypes.int32, dtypes.as_bool]

/-- Witness for C10: a two-operand WHERE with a true (1-valued int)
condition returns the second operand; the same two-operand WHERE with a
false condition fails with InvalidOperands. -/
theorem where_true_skips_validation_witness :
    exec_alu AluOp.WHERE dtypes.int32 [PyVal.vint 1, PyVal.vint 5]
      = Except.ok (PyVal.vint 5) ∧
    exec_alu AluOp.WHERE dtypes.int32 [PyVal.vbool false, PyVal.vint 5]
      = Except.error AluError.InvalidOperands := by
  have h := where_true_skips_validation (PyVal.vint 1) 5 [] (by decide) (by decide) (by decide)
  exact ⟨h.1, h.2⟩

/-! ### Claim C5: image load/store bounds asymmetry -/

/-- C5: for coordinates outside the image bounds, an image load returns 0
for every one of the 4 channels without failing, while an image store at
the same coordinates fails the bounds assertion: the two policies are
asymmetric. -/
theorem image_bounds_asymmetry (m : List PyVal) (H W : Nat) (ox oy : Int) (cs : Nat) (v : PyVal)
    (hoob : ox < 0 ∨ (W : Int) ≤ ox ∨ oy < 0 ∨ (H : Int) ≤ oy) :
    (∀ ch, ch < 4 → imageLoadLane m H W ox oy ch = Except.ok (PyVal.vint 0)) ∧
    imageStoreLane m H W ox oy cs v = Except.error MemErr.AssertionFailed := by
  constructor
  · intro ch _
    simp only [imageLoadLane, if_pos hoob]
  · have hng : ¬ (0 ≤ ox ∧ ox < (W : Int) ∧ 0 ≤ oy ∧ oy < (H : Int)) := by
      rcases hoob with h | h | h | h
      · exact fun hc => absurd hc.1 (not_le.mpr h)
      · exact fun hc => absurd hc.2.1 (not_lt.mpr h)
      · exact fun hc => absurd hc.2.2.1 (not_le.mpr h)
      · exact fun hc => absurd hc.2.2.2 (not_lt.mpr h)
    simp only [imageStoreLane, if_neg hng]

/-- Witness for C5: coordinate (-1, 0) on a 4 x 4 image: all four channels
load as 0 and the store fails. -/
theorem image_bounds_asymmetry_witness :
    (imageLoadLane (List.replicate 64 (PyVal.vint 7)) 4 4 (-1) 0 0 = Except.ok (PyVal.vint 0) ∧
     imageLoadLane (List.replicate 64 (PyVal.vint 7)) 4 4 (-1) 0 1 = Except.ok (PyVal.vint 0) ∧
     imageLoadLane (List.replicate 64 (PyVal.vint 7)) 4 4 (-1) 0 2 = Except.ok (PyVal.vint 0) ∧
     imageLoadLane (List.replicate 64 (PyVal.vint 7)) 4 4 (-1) 0 3 = Except.ok (PyVal.vint 0)) ∧
    imageStoreLane (List.replicate 64 (PyVal.vint 7)) 4 4 (-1) 0 0 (PyVal.vint 9)
      = Except.error MemErr.AssertionFailed := by
  have h := image_bounds_asymmetry (List.replicate 64 (PyVal.vint 7)) 4 4 (-1) 0 0
    (PyVal.vint 9) (Or.inl (by decide))
  exact ⟨⟨h.1 0 (by decide), h.1 1 (by decide), h.1 2 (by decide), h.1 3 (by decide)⟩, h.2⟩

/-! ### Claim C6: gated vectorized load -/

/-- On lanes whose gate is false the lane body returns the default with no
bounds check; when every true-gated lane is in bounds the whole gated load
succeeds with the per-lane selection of memory value or default. -/
theorem gated_load_ok (j : Int) (z : List (List PyVal × Int × PyVal × PyVal))
    (h : ∀ t ∈ z, t.2.2.1.eqZero = false → 0 ≤ t.2.1 + j ∧ t.2.1 + j < (t.1.length : Int)) :
    mapExcept
        (fun t => if t.2.2.1.eqZero = false then _load t.1 (t.2.1 + j) else Except.ok t.2.2.2)
        z
      = Except.ok (z.map (fun t =>
          if t.2.2.1.eqZero = false then t.1.getD (t.2.1 + j).toNat (PyVal.vint 0)
          else t.2.2.2)) := by
  induction z with
  | nil => rfl
  | cons t rest ih =>
      have hh := h t (List.mem_cons_self t rest)
      have hrest : ∀ u ∈ rest, u.2.2.1.eqZero = false → 0 ≤ u.2.1 + j ∧ u.2.1 + j < (u.1.length : Int) :=
        fun u hu => h u (List.mem_cons_of_mem t hu)
      by_cases hg : t.2.2.1.eqZero = false
      · have hb := hh hg
        have hnb : ¬ (t.2.1 + j < 0 ∨ (t.1.length : Int) ≤ t.2.1 + j) := by
          push_neg
          exact ⟨hb.1, hb.2⟩
        have hload : _load t.1 (t.2.1 + j) = Except.ok (t.1.getD (t.2.1 + j).toNat (PyVal.vint 0)) := by
          simp only [_load, if_neg hnb]
        simp only [mapExcept, List.map_cons, if_pos hg, hload, ih hrest]
      · simp only [mapExcept, List.map_cons, if_neg hg, ih hrest]

/-- A gated-load lane list containing a true-gated out-of-bounds lane makes
the whole comprehension raise OutOfBounds. -/
theorem gated_load_fail (j : Int) (z : List (List PyVal × Int × PyVal × PyVal))
    (h : ∃ t ∈ z, t.2.2.1.eqZero = false ∧ (t.2.1 + j < 0 ∨ (t.1.length : Int) ≤ t.2.1 + j)) :
    mapExcept
        (fun t => if t.2.2.1.eqZero = false then _load t.1 (t.2.1 + j) else Except.ok t.2.2.2)
        z
      = Except.error MemErr.OutOfBounds := by
  induction z with
  | nil => rcases h with ⟨t, ht, _⟩; exact absurd ht (List.not_mem_nil t)
  | cons t rest ih =>
      rcases h with ⟨u, hu, hfail⟩
      rcases List.mem_cons.mp hu with rfl | humem
      · simp only [mapExcept, if_pos hfail.1]
        rw [_load, if_pos hfail.2]
      · by_cases hg : t.2.2.1.eqZero = false
        · by_cases hb : t.2.1 + j < 0 ∨ (t.1.length : Int) ≤ t.2.1 + j
          · simp only [mapExcept, if_pos hg]
            rw [_load, if_pos hb]
          · have hload : _load t.1 (t.2.1 + j)
                = Except.ok (t.1.getD (t.2.1 + j).toNat (PyVal.vint 0)) := by
              simp only [_load, if_neg hb]
            have hrec := ih ⟨u, humem, hfail⟩
            simp only [mapExcept, if_pos hg, hload, hrec]
        · have hrec := ih ⟨u, humem, hfail⟩
          simp only [mapExcept, if_neg hg, hrec]

/-- An ungated lane list with every offset in bounds loads all lanes. -/
theorem ungated_load_ok (j : Int) (z : List (List PyVal × Int))
    (h : ∀ t ∈ z, 0 ≤ t.2 + j ∧ t.2 + j < (t.1.length : Int)) :
    mapExcept (fun t => _load t.1 (t.2 + j)) z
      = Except.ok (z.map (fun t => t.1.getD (t.2 + j).toNat (PyVal.vint 0))) := by
  induction z with
  | nil => rfl
  | cons t rest ih =>
      have hb := h t (List.mem_cons_self t rest)
      have hnb : ¬ (t.2 + j < 0 ∨ (t.1.length : Int) ≤ t.2 + j) := by
        push_neg
        exact ⟨hb.1, hb.2⟩
      have hload : _load t.1 (t.2 + j) = Except.ok (t.1.getD (t.2 + j).toNat (PyVal.vint 0)) := by
        simp only [_load, if_neg hnb]
      simp only [mapExcept, List.map_cons, hload,
        ih (fun u hu => h u (List.mem_cons_of_mem t hu))]

/-- An ungated lane list containing an out-of-bounds offset makes the
whole comprehension raise OutOfBounds. -/
theorem ungated_load_fail (j : Int) (z : List (List PyVal × Int))
    (h : ∃ t ∈ z, t.2 + j < 0 ∨ (t.1.length : Int) ≤ t.2 + j) :
    mapExcept (fun t => _load t.1 (t.2 + j)) z = Except.error MemErr.OutOfBounds := by
  induction z with
  | nil => rcases h with ⟨t, ht, _⟩; exact absurd ht (List.not_mem_nil t)
  | cons t rest ih =>
      rcases h with ⟨u, hu, hfail⟩
      rcases List.mem_cons.mp hu with rfl | humem
      · simp only [mapExcept]
        rw [_load, if_pos hfail]
      · by_cases hb : t.2 + j < 0 ∨ (t.1.length : Int) ≤ t.2 + j
        · simp only [mapExcept]
          rw [_load, if_pos hb]
        · have hload : _load t.1 (t.2 + j)
              = Except.ok (t.1.getD (t.2 + j).toNat (PyVal.vint 0)) := by
            simp only [_load, if_neg hb]
          simp only [mapExcept, hload, ih ⟨u, humem, hfail⟩]

/-- C6: gated vectorized load semantics, stated on the load function: when
every true-gated lane offset is in bounds the result is, per lane, the
memory value for a true gate and exactly the supplied default for a false
gate (false-gated offsets are never bounds-checked: they are unconstrained
by the hypothesis); when some true-gated lane offset is out of bounds the
load fails with OutOfBounds; the unconditional two-list form bounds-checks
every lane, succeeding exactly on in-bounds offsets and failing with
OutOfBounds on any negative or past-the-end offset. -/
theorem gated_load_semantics (ms : List (List PyVal)) (xs : List Int) (gates : List PyVal)
    (ds : List PyVal) (j : Int) :
    ((∀ t ∈ zip4 ms xs gates ds, t.2.2.1.eqZero = false →
        0 ≤ t.2.1 + j ∧ t.2.1 + j < (t.1.length : Int)) →
      load (LoadInp.gated ms xs gates ds) j
        = Except.ok ((zip4 ms xs gates ds).map (fun t =>
            if t.2.2.1.eqZero = false then t.1.getD (t.2.1 + j).toNat (PyVal.vint 0)
            else t.2.2.2))) ∧
    ((∃ t ∈ zip4 ms xs gates ds, t.2.2.1.eqZero = false ∧
        (t.2.1 + j < 0 ∨ (t.1.length : Int) ≤ t.2.1 + j)) →
      load (LoadInp.gated ms xs gates ds) j = Except.error MemErr.OutOfBounds) ∧
    ((∀ t ∈ ms.zip xs, 0 ≤ t.2 + j ∧ t.2 + j < (t.1.length : Int)) →
      load (LoadInp.ungated ms xs) j
        = Except.ok ((ms.zip xs).map (fun t => t.1.getD (t.2 + j).toNat (PyVal.vint 0)))) ∧
    ((∃ t ∈ ms.zip xs, t.2 + j < 0 ∨ (t.1.length : Int) ≤ t.2 + j) →
      load (LoadInp.ungated ms xs) j = Except.error MemErr.OutOfBounds) := by
  refine ⟨?_, ?_, ?_, ?_⟩
  · intro h
    exact gated_load_ok j (zip4 ms xs gates ds) h
  · intro h
    exact gated_load_fail j (zip4 ms xs gates ds) h
  · intro h
    exact ungated_load_ok j (ms.zip xs) h
  · intro h
    exact ungated_load_fail j (ms.zip xs) h

/-- Witness for C6: two lanes over singleton buffers; lane 0 has a false
gate and an out-of-bounds offset yet yields its default 99 without failing;
lane 1 has a true gate and loads the memory value 20; flipping lane 0's
gate to true makes the same offsets fail with OutOfBounds. -/
theorem gated_load_semantics_witness :
    load (LoadInp.gated [[PyVal.vint 10], [PyVal.vint 20]] [5, 0]
        [PyVal.vbool false, PyVal.vbool true] [PyVal.vint 99, PyVal.vint 98]) 0
      = Except.ok [PyVal.vint 99, PyVal.vint 20] ∧
    load (LoadInp.gated [[PyVal.vint 10], [PyVal.vint 20]] [5, 0]
        [PyVal.vbool true, PyVal.vbool true] [PyVal.vint 99, PyVal.vint 98]) 0
      = Except.error MemErr.OutOfBounds := by
  constructor
  · have h := (gated_load_semantics [[PyVal.vint 10], [PyVal.vint 20]] [5, 0]
      [PyVal.vbool false, PyVal.vbool true] [PyVal.vint 99, PyVal.vint 98] 0).1 (by decide)
    rw [h]; decide
  · exact (gated_load_semantics [[PyVal.vint 10], [PyVal.vint 20]] [5, 0]
      [PyVal.vbool true, PyVal.vbool true] [PyVal.vint 99, PyVal.vint 98] 0).2.1 (by decide)

/-! ### Tensor-core accumulation lemmas (claim C1) -/

/-- The accumulated row of wmmaAcc, valid also when the row index is out of
range (both sides are then the empty list). -/
theorem wmmaAcc_row_self (o : List (List PyVal)) (e p : Nat) (s : PyVal) :
    (wmmaAcc o e p s).getD e []
      = (o.getD e []).set p (pvAdd ((o.getD e []).getD p (PyVal.vint 0)) s) := by
  by_cases h : e < o.length
  · exact list_getD_set_self _ _ _ _ h
  · push_neg at h
    rw [wmmaAcc, list_set_oob _ _ _ h, List.getD_eq_default _ _ h]
    rfl

/-- Other rows are untouched by wmmaAcc. -/
theorem wmmaAcc_row_ne (o : List (List PyVal)) (e p : Nat) (s : PyVal) (i : Nat) (h : i ≠ e) :
    (wmmaAcc o e p s).getD i [] = o.getD i [] :=
  list_getD_set_ne _ _ _ _ _ h

theorem wmmaAcc_length (o : List (List PyVal)) (e p : Nat) (s : PyVal) :
    (wmmaAcc o e p s).length = o.length := by
  simp [wmmaAcc]

theorem wmmaAcc_rowlen (o : List (List PyVal)) (e p : Nat) (s : PyVal) (i : Nat) :
    ((wmmaAcc o e p s).getD i []).length = (o.getD i []).length := by
  by_cases h : i = e
  · subst h
    rw [wmmaAcc_row_self]
    exact List.length_set _ _ _
  · rw [wmmaAcc_row_ne _ _ _ _ _ h]

/-- Reading the accumulated cell. -/
theorem wmmaVal_acc_self (o : List (List PyVal)) (e p : Nat) (s : PyVal)
    (hp : p < (o.getD e []).length) :
    wmmaVal (wmmaAcc o e p s) e p = pvAdd (wmmaVal o e p) s := by
  rw [wmmaVal, wmmaAcc_row_self, list_getD_set_self _ _ _ _ hp]
  rfl

/-- Reading any other cell after an accumulation. -/
theorem wmmaVal_acc_ne (o : List (List PyVal)) (e p : Nat) (s : PyVal) (i q : Nat)
    (h : i ≠ e ∨ q ≠ p) :
    wmmaVal (wmmaAcc o e p s) i q = wmmaVal o i q := by
  rcases h with h | h
  · rw [wmmaVal, wmmaAcc_row_ne _ _ _ _ _ h]
    rfl
  · by_cases he : i = e
    · subst he
      rw [wmmaVal, wmmaAcc_row_self, list_getD_set_ne _ _ _ _ _ h]
      rfl
    · rw [wmmaVal, wmmaAcc_row_ne _ _ _ _ _ he]
      rfl

theorem wmmaElemFold_length (p : Nat) (S : Nat → PyVal) (es : List Nat)
    (o : List (List PyVal)) : (wmmaElemFold p S o es).length = o.length := by
  induction es generalizing o with
  | nil => rfl
  | cons e es ih =>
      show (wmmaElemFold p S (wmmaAcc o e p (S e)) es).length = o.length
      rw [ih (wmmaAcc o e p (S e)), wmmaAcc_length]

theorem wmmaElemFold_rowlen (p : Nat) (S : Nat → PyVal) (es : List Nat)
    (o : List (List PyVal)) (i : Nat) :
    ((wmmaElemFold p S o es).getD i []).length = (o.getD i []).length := by
  induction es generalizing o with
  | nil => rfl
  | cons e es ih =>
      show ((wmmaElemFold p S (wmmaAcc o e p (S e)) es).getD i []).length = _
      rw [ih (wmmaAcc o e p (S e)), wmmaAcc_rowlen]

/-- Value characterization of the element loop: each element index in the
(duplicate-free) loop list accumulates its own summand at the shared
position; everything else is untouched. -/
theorem wmmaElemFold_val (p : Nat) (S : Nat → PyVal) (es : List Nat) (o : List (List PyVal))
    (hnd : es.Nodup) (hb : ∀ e ∈ es, p < (o.getD e []).length) (i q : Nat) :
    wmmaVal (wmmaElemFold p S o es) i q
      = if i ∈ es ∧ q = p then pvAdd (wmmaVal o i q) (S i) else wmmaVal o i q := by
  induction es generalizing o with
  | nil => simp [wmmaElemFold]
  | cons e es ih =>
      rcases List.nodup_cons.mp hnd with ⟨hem, hndr⟩
      have hb_head := hb e (List.mem_cons_self e es)
      have hb' : ∀ u ∈ es, p < ((wmmaAcc o e p (S e)).getD u []).length := by
        intro u hu
        rw [wmmaAcc_rowlen]
        exact hb u (List.mem_cons_of_mem e hu)
      show wmmaVal (wmmaElemFold p S (wmmaAcc o e p (S e)) es) i q = _
      rw [ih _ hndr hb']
      by_cases h1 : i ∈ es ∧ q = p
      · rw [if_pos h1]
        have hne : i ≠ e := fun hc => hem (hc ▸ h1.1)
        rw [wmmaVal_acc_ne _ _ _ _ _ _ (Or.inl hne),
          if_pos ⟨List.mem_cons_of_mem e h1.1, h1.2⟩]
      · rw [if_neg h1]
        by_cases h2 : i = e ∧ q = p
        · rcases h2 with ⟨rfl, rfl⟩
          rw [wmmaVal_acc_self _ _ _ _ hb_head,
            if_pos ⟨List.mem_cons_self _ _, rfl⟩]
        · have hor : i ≠ e ∨ q ≠ p := by
            by_contra hc
            push_neg at hc
            exact h2 ⟨hc.1, hc.2⟩
          rw [wmmaVal_acc_ne _ _ _ _ _ _ hor]
          rw [if_neg ?h3]
          case h3 =>
            rintro ⟨hm, hq⟩
            rcases List.mem_cons.mp hm with rfl | hm2
            · exact h2 ⟨rfl, hq⟩
            · exact h1 ⟨hm2, hq⟩

theorem wmmaLaneFold_length (NC goff : Nat) (S : Nat → Nat → PyVal) (ls : List Nat)
    (o : List (List PyVal)) : (wmmaLaneFold NC goff S o ls).length = o.length := by
  induction ls generalizing o with
  | nil => rfl
  | cons lane ls ih =>
      show (wmmaLaneFold NC goff S (wmmaElemFold (goff + lane) (S lane) o (List.range NC)) ls).length = _
      rw [ih, wmmaElemFold_length]

theorem wmmaLaneFold_rowlen (NC goff : Nat) (S : Nat → Nat → PyVal) (ls : List Nat)
    (o : List (List PyVal)) (i : Nat) :
    ((wmmaLaneFold NC goff S o ls).getD i []).length = (o.getD i []).length := by
  induction ls generalizing o with
  | nil => rfl
  | cons lane ls ih =>
      show ((wmmaLaneFold NC goff S (wmmaElemFold (goff + lane) (S lane) o (List.range NC)) ls).getD i []).length = _
      rw [ih, wmmaElemFold_rowlen]

/-- Value characterization of the lane loop: each lane in the
(duplicate-free) lane list accumulates, at its own position goff + lane,
the summand of every output element index; everything else is untouched. -/
theorem wmmaLaneFold_val (NC goff : Nat) (S : Nat → Nat → PyVal) (ls : List Nat)
    (o : List (List PyVal)) (hnd : ls.Nodup)
    (hb : ∀ lane ∈ ls, ∀ e, e < NC → goff + lane < (o.getD e []).length) (i q : Nat) :
    wmmaVal (wmmaLaneFold NC goff S o ls) i q
      = if i < NC ∧ ∃ lane ∈ ls, q = goff + lane then
          pvAdd (wmmaVal o i q) (S (q - goff) i)
        else wmmaVal o i q := by
  induction ls generalizing o with
  | nil => simp [wmmaLaneFold]
  | cons lane ls ih =>
      rcases List.nodup_cons.mp hnd with ⟨hlm, hndr⟩
      have hbh : ∀ e ∈ List.range NC, goff + lane < (o.getD e []).length := by
        intro e he
        exact hb lane (List.mem_cons_self lane ls) e (List.mem_range.mp he)
      have hb' : ∀ l2 ∈ ls, ∀ e, e < NC →
          goff + l2 < ((wmmaElemFold (goff + lane) (S lane) o (List.range NC)).getD e []).length := by
        intro l2 hl2 e he
        rw [wmmaElemFold_rowlen]
        exact hb l2 (List.mem_cons_of_mem lane hl2) e he
      show wmmaVal (wmmaLaneFold NC goff S (wmmaElemFold (goff + lane) (S lane) o (List.range NC)) ls) i q = _
      rw [ih _ hndr hb']
      by_cases h1 : i < NC ∧ ∃ l2 ∈ ls, q = goff + l2
      · rw [if_pos h1]
        rcases h1.2 with ⟨l2, hl2, rfl⟩
        have hne : goff + l2 ≠ goff + lane := by
          intro hc
          exact hlm ((Nat.add_left_cancel hc) ▸ hl2)
        rw [wmmaElemFold_val _ _ _ _ (List.nodup_range NC) hbh,
          if_neg (fun hc => hne hc.2),
          if_pos ⟨h1.1, ⟨l2, List.mem_cons_of_mem lane hl2, rfl⟩⟩]
      · rw [if_neg h1]
        rw [wmmaElemFold_val _ _ _ _ (List.nodup_range NC) hbh]
        by_cases h2 : i < NC ∧ q = goff + lane
        · rw [if_pos ⟨List.mem_range.mpr h2.1, h2.2⟩]
          have hsub : q - goff = lane := by rw [h2.2]; exact Nat.add_sub_cancel_left goff lane
          rw [if_pos ⟨h2.1, ⟨lane, List.mem_cons_self lane ls, h2.2⟩⟩, hsub]
        · have hng : ¬ (i ∈ List.range NC ∧ q = goff + lane) := by
            rintro ⟨hm, hq⟩
            exact h2 ⟨List.mem_range.mp hm, hq⟩
          rw [if_neg hng]
          rw [if_neg ?hg2]
          case hg2 =>
            rintro ⟨hiNC, l2, hl2, hq⟩
            rcases List.mem_cons.mp hl2 with rfl | hl2m
            · exact h2 ⟨hiNC, hq⟩
            · exact h1 ⟨hiNC, ⟨l2, hl2m, hq⟩⟩

theorem wmmaGoffFold_length (WT NC : Nat) (S : Nat → Nat → Nat → PyVal) (gs : List Nat)
    (o : List (List PyVal)) : (wmmaGoffFold WT NC S o gs).length = o.length := by
  induction gs generalizing o with
  | nil => rfl
  | cons g gs ih =>
      show (wmmaGoffFold WT NC S (wmmaLaneFold NC g (S g) o (List.range WT)) gs).length = _
      rw [ih, wmmaLaneFold_length]

theorem wmmaGoffFold_rowlen (WT NC : Nat) (S : Nat → Nat → Nat → PyVal) (gs : List Nat)
    (o : List (List PyVal)) (i : Nat) :
    ((wmmaGoffFold WT NC S o gs).getD i []).length = (o.getD i []).length := by
  induction gs generalizing o with
  | nil => rfl
  | cons g gs ih =>
      show ((wmmaGoffFold WT NC S (wmmaLaneFold NC g (S g) o (List.range WT)) gs).getD i []).length = _
      rw [ih, wmmaLaneFold_rowlen]

/-- Value characterization of the full group loop over the lane groups
0, WT, ..., (n-1)*WT: every position below n*WT accumulates exactly once,
with the summand of its own group and lane. -/
theorem wmmaGoffFold_val (WT NC : Nat) (hWT : 0 < WT) (S : Nat → Nat → Nat → PyVal) (n : Nat)
    (o : List (List PyVal))
    (hb : ∀ g, g < n → ∀ lane, lane < WT → ∀ e, e < NC →
      g * WT + lane < (o.getD e []).length) (i q : Nat) :
    wmmaVal (wmmaGoffFold WT NC S o ((List.range n).map (fun g => g * WT))) i q
      = if i < NC ∧ q < n * WT then
          pvAdd (wmmaVal o i q) (S ((q / WT) * WT) (q % WT) i)
        else wmmaVal o i q := by
  induction n with
  | zero => simp [wmmaGoffFold]
  | succ n ih =>
      rw [List.range_succ, List.map_append, wmmaGoffFold, List.foldl_append]
      have hb' : ∀ g, g < n → ∀ lane, lane < WT → ∀ e, e < NC →
          g * WT + lane < (o.getD e []).length :=
        fun g hg => hb g (Nat.lt_succ_of_lt hg)
      have hbl : ∀ lane ∈ List.range WT, ∀ e, e < NC →
          n * WT + lane < ((wmmaGoffFold WT NC S o ((List.range n).map (fun g => g * WT))).getD e []).length := by
        intro lane hl e he
        rw [wmmaGoffFold_rowlen]
        exact hb n (Nat.lt_succ_self n) lane (List.mem_range.mp hl) e he
      show wmmaVal (wmmaLaneFold NC (n * WT) (S (n * WT))
        (wmmaGoffFold WT NC S o ((List.range n).map (fun g => g * WT))) (List.range WT)) i q = _
      rw [wmmaLaneFold_val _ _ _ _ _ (List.nodup_range WT) hbl]
      by_cases hc : i < NC ∧ ∃ lane ∈ List.range WT, q = n * WT + lane
      · rw [if_pos hc]
        rcases hc.2 with ⟨lane, hlm, rfl⟩
        have hlw := List.mem_range.mp hlm
        have hqn : ¬ (n * WT + lane < n * WT) := by
          intro hcon
          exact absurd hcon (Nat.not_lt.mpr (Nat.le_add_right _ _))
        rw [ih hb', if_neg (fun hcon => hqn hcon.2)]
        have hdiv : (n * WT + lane) / WT = n := by
          rw [Nat.mul_comm n WT, Nat.mul_add_div hWT, Nat.div_eq_of_lt hlw, Nat.add_zero]
        have hmod : (n * WT + lane) % WT = lane := by
          rw [Nat.mul_comm n WT, Nat.mul_add_mod, Nat.mod_eq_of_lt hlw]
        have hsub : n * WT + lane - n * WT = lane := Nat.add_sub_cancel_left (n * WT) lane
        rw [if_pos ⟨hc.1, Nat.lt_of_lt_of_le (Nat.add_lt_add_left hlw (n * WT))
          (by rw [Nat.succ_mul])⟩]
        rw [hdiv, hmod, hsub]
      · rw [if_neg hc, ih hb']
        by_cases h2 : i < NC ∧ q < n * WT
        · rw [if_pos h2, if_pos ⟨h2.1, Nat.lt_of_lt_of_le h2.2
            (by rw [Nat.succ_mul]; exact Nat.le_add_right _ _)⟩]
        · rw [if_neg h2]
          rw [if_neg ?hg3]
          case hg3 =>
            rintro ⟨hiNC, hq⟩
            by_cases hqlt : q < n * WT
            · exact h2 ⟨hiNC, hqlt⟩
            · push_neg at hqlt
              refine hc ⟨hiNC, ⟨q - n * WT, List.mem_range.mpr ?_, ?_⟩⟩
              · have : q < n * WT + WT := by rw [Nat.succ_mul] at hq; exact hq
                exact Nat.sub_lt_left_of_lt_add hqlt this
              · exact (Nat.add_sub_cancel' hqlt).symm

/-- Length of a flattened uniform list of rows. -/
theorem flattenLenUniform (l : List (List PyVal)) (n w : Nat) (hl : l.length = n)
    (hr : ∀ r ∈ l, r.length = w) : l.flatten.length = n * w := by
  rw [List.length_flatten]
  have hmap : l.map List.length = List.replicate n w := by
    refine List.eq_replicate_iff.mpr ⟨by simpa using hl, ?_⟩
    intro b hb
    rcases List.mem_map.mp hb with ⟨r, hrm, rfl⟩
    exact hr r hrm
  rw [hmap, List.sum_replicate, smul_eq_mul]

/-- Indexing the seeded output rows (range-map of row copies). -/
theorem getD_map_range {α : Type} (f : Nat → α) (n e : Nat) (d : α) (h : e < n) :
    ((List.range n).map f).getD e d = f e := by
  have hlen : e < ((List.range n).map f).length := by simpa using h
  rw [List.getD_eq_getElem _ _ hlen]
  simp

/-- A lane position inside group g is below the warp size. -/
theorem groupPosLt (WT ws g lane : Nat) (hg : g < ws / WT) (hl : lane < WT)
    (hdvd : ws % WT = 0) : g * WT + lane < ws := by
  have h2 : (g + 1) * WT ≤ (ws / WT) * WT := Nat.mul_le_mul_right _ hg
  have h3 : (ws / WT) * WT = ws := Nat.div_mul_cancel (Nat.dvd_of_mod_eq_zero hdvd)
  calc g * WT + lane < g * WT + WT := Nat.add_lt_add_left hl _
    _ = (g + 1) * WT := by ring
    _ ≤ ws := h3 ▸ h2

/-- General form of the C1 property for wmma_helper: on well-shaped
operands the helper succeeds, and every output cell equals the
corresponding C cell plus the dot product of the layout's addressed A row
and B column. -/
theorem wmma_helper_val (WT K NA NB NC ws : Nat) (hWT : 0 < WT)
    (aE bE : List (List PyVal) → Nat → Nat → Nat → PyVal) (cmap : Nat → Nat → Nat × Nat)
    (A B C : List (List PyVal))
    (hA : A.length = NA) (hAr : ∀ r ∈ A, r.length = ws)
    (hB : B.length = NB) (hBr : ∀ r ∈ B, r.length = ws)
    (hC : C.length = NC) (hCr : ∀ r ∈ C, r.length = ws)
    (hws : 0 < ws) (hmod : ws % WT = 0) :
    ∃ out, wmma_helper WT K NA NB NC ws aE bE cmap A B C = Except.ok out ∧
      ∀ g lane e, g < ws / WT → lane < WT → e < NC →
        wmmaVal out e (g * WT + lane)
          = pvAdd (wmmaVal C e (g * WT + lane))
              (wmmaDot K aE bE A B (cmap lane e).1 (cmap lane e).2 (g * WT)) := by
  have hcond : A.length = NA ∧ B.length = NB ∧ C.length = NC ∧
      A.flatten.length = NA * ws ∧ B.flatten.length = NB * ws ∧ C.flatten.length = NC * ws ∧
      0 < ws ∧ ws % WT = 0 :=
    ⟨hA, hB, hC, flattenLenUniform A NA ws hA hAr, flattenLenUniform B NB ws hB hBr,
      flattenLenUniform C NC ws hC hCr, hws, hmod⟩
  have hCrow : ∀ e, e < NC → (C.getD e []).length = ws := by
    intro e he
    have helt : e < C.length := by rw [hC]; exact he
    rw [List.getD_eq_getElem _ _ helt]
    exact hCr _ (List.getElem_mem helt)
  have hrow0 : ∀ e, e < NC →
      (((List.range NC).map (fun e2 => C.getD e2 [])).getD e []).length = ws := by
    intro e he
    rw [getD_map_range _ _ _ _ he]
    exact hCrow e he
  refine ⟨wmmaLoop WT K NC ws aE bE cmap A B ((List.range NC).map (fun e2 => C.getD e2 [])),
    ?_, ?_⟩
  · rw [wmma_helper, if_pos hcond]
  · intro g lane e hg hl he
    have hb : ∀ g2, g2 < ws / WT → ∀ lane2, lane2 < WT → ∀ e2, e2 < NC →
        g2 * WT + lane2 <
          (((List.range NC).map (fun e2 => C.getD e2 [])).getD e2 []).length := by
      intro g2 hg2 lane2 hl2 e2 he2
      rw [hrow0 e2 he2]
      exact groupPosLt WT ws g2 lane2 hg2 hl2 hmod
    rw [wmmaLoop, wmmaGoffFold_val WT NC hWT _ (ws / WT) _ hb]
    have hq : g * WT + lane < (ws / WT) * WT := by
      have h2 : (g + 1) * WT ≤ (ws / WT) * WT := Nat.mul_le_mul_right _ hg
      calc g * WT + lane < g * WT + WT := Nat.add_lt_add_left hl _
        _ = (g + 1) * WT := by ring
        _ ≤ (ws / WT) * WT := h2
    rw [if_pos ⟨he, hq⟩]
    have hdiv : (g * WT + lane) / WT = g := by
      rw [Nat.mul_comm g WT, Nat.mul_add_div hWT, Nat.div_eq_of_lt hl, Nat.add_zero]
    have hmodq : (g * WT + lane) % WT = lane := by
      rw [Nat.mul_comm g WT, Nat.mul_add_mod, Nat.mod_eq_of_lt hl]
    rw [hdiv, hmodq, wmmaVal, getD_map_range _ _ _ _ he]
    rfl

/-! ### Claim C1: the two tensor-core layouts compute C + A*B -/

/-- C1: for both supported hardware layouts (the Metal-style 32-lane K=8
layout with 2 A/B/C elements per lane, and the HIP-style 32-lane K=16
layout with 16 A/B and 8 C elements per lane, whose A/B halves must be
duplicated across the two lane-halves), a WMMA instruction succeeds on
well-shaped operands and every output element equals the C element plus the
sum over k of the layout-addressed A and B elements: the output is seeded
as a copy of C and accumulates the dot product. -/
theorem wmma_layouts_compute_c_plus_ab
    (A1 B1 Cm A2 B2 Ch : List (List PyVal)) (ws : Nat)
    (hws : 0 < ws) (hmod : ws % 32 = 0)
    (hA1 : A1.length = 2) (hA1r : ∀ r ∈ A1, r.length = ws)
    (hB1 : B1.length = 2) (hB1r : ∀ r ∈ B1, r.length = ws)
    (hCm : Cm.length = 2) (hCmr : ∀ r ∈ Cm, r.length = ws)
    (hA2 : A2.length = 16) (hA2r : ∀ r ∈ A2, r.length = ws)
    (hB2 : B2.length = 16) (hB2r : ∀ r ∈ B2, r.length = ws)
    (hCh : Ch.length = 8) (hChr : ∀ r ∈ Ch, r.length = ws)
    (hdupA : hipDupOK A2 ws = true) (hdupB : hipDupOK B2 ws = true) :
    (∃ out, metalWMMA A1 B1 Cm ws = Except.ok out ∧
      ∀ g lane e, g < ws / 32 → lane < 32 → e < 2 →
        wmmaVal out e (g * 32 + lane)
          = pvAdd (wmmaVal Cm e (g * 32 + lane))
              (wmmaDot 8 metal_a_b_elem metal_a_b_elem A1 B1
                (metal_c_map lane e).1 (metal_c_map lane e).2 (g * 32))) ∧
    (∃ out, hipWMMA A2 B2 Ch ws = Except.ok out ∧
      ∀ g lane e, g < ws / 32 → lane < 32 → e < 8 →
        wmmaVal out e (g * 32 + lane)
          = pvAdd (wmmaVal Ch e (g * 32 + lane))
              (wmmaDot 16 hip_a_elem hip_b_elem A2 B2
                (hip_c_map lane e).1 (hip_c_map lane e).2 (g * 32))) := by
  constructor
  · exact wmma_helper_val 32 8 2 2 2 ws (by decide) metal_a_b_elem metal_a_b_elem metal_c_map
      A1 B1 Cm hA1 hA1r hB1 hB1r hCm hCmr hws hmod
  · rcases wmma_helper_val 32 16 16 16 8 ws (by decide) hip_a_elem hip_b_elem hip_c_map
      A2 B2 Ch hA2 hA2r hB2 hB2r hCh hChr hws hmod with ⟨out, hok, hval⟩
    refine ⟨out, ?_, hval⟩
    rw [hipWMMA, if_pos ⟨hdupA, hdupB⟩]
    exact hok

/-- Witness for C1 on a 32-lane warp with concrete integer operands (the
HIP operands duplicate their lane-halves as required). -/
theorem wmma_layouts_compute_c_plus_ab_witness :
    (∃ out, metalWMMA
        [(List.range 32).map (fun l => PyVal.vint (l + 1)),
         (List.range 32).map (fun l => PyVal.vint (2 * l))]
        [(List.range 32).map (fun l => PyVal.vint (3 * l + 2)),
         (List.range 32).map (fun l => PyVal.vint l)]
        [(List.range 32).map (fun l => PyVal.vint (l * l)),
         (List.range 32).map (fun l => PyVal.vint (5 - (l : Int)))] 32 = Except.ok out ∧
      ∀ g lane e, g < 32 / 32 → lane < 32 → e < 2 →
        wmmaVal out e (g * 32 + lane)
          = pvAdd (wmmaVal
              [(List.range 32).map (fun l => PyVal.vint (l * l)),
               (List.range 32).map (fun l => PyVal.vint (5 - (l : Int)))] e (g * 32 + lane))
              (wmmaDot 8 metal_a_b_elem metal_a_b_elem
                [(List.range 32).map (fun l => PyVal.vint (l + 1)),
                 (List.range 32).map (fun l => PyVal.vint (2 * l))]
                [(List.range 32).map (fun l => PyVal.vint (3 * l + 2)),
                 (List.range 32).map (fun l => PyVal.vint l)]
                (metal_c_map lane e).1 (metal_c_map lane e).2 (g * 32))) ∧
    (∃ out, hipWMMA
        (List.replicate 16 ((List.range 32).map (fun l => PyVal.vint (l % 16 + 3))))
        (List.replicate 16 ((List.range 32).map (fun l => PyVal.vint (2 * (l % 16)))))
        (List.replicate 8 ((List.range 32).map (fun l => PyVal.vint l))) 32 = Except.ok out ∧
      ∀ g lane e, g < 32 / 32 → lane < 32 → e < 8 →
        wmmaVal out e (g * 32 + lane)
          = pvAdd (wmmaVal
              (List.replicate 8 ((List.range 32).map (fun l => PyVal.vint l))) e (g * 32 + lane))
              (wmmaDot 16 hip_a_elem hip_b_elem
                (List.replicate 16 ((List.range 32).map (fun l => PyVal.vint (l % 16 + 3))))
                (List.replicate 16 ((List.range 32).map (fun l => PyVal.vint (2 * (l % 16)))))
                (hip_c_map lane e).1 (hip_c_map lane e).2 (g * 32))) :=
  wmma_layouts_compute_c_plus_ab _ _ _ _ _ _ 32 (by decide) (by decide)
    (by decide) (by decide) (by decide) (by decide) (by decide) (by decide)
    (by decide) (by decide) (by decide) (by decide) (by decide) (by decide)
    (by decide) (by decide)

/-! ### Claim C9: determinism -/

/-- C9: the interpreter is deterministic: running the same program on equal
buffer contents with the same global size, local size and fuel produces
equal final global-buffer contents (and, since pycall is a pure function of
these inputs, equal Value Table results along the way); wall-clock time is
the only output of the source not modelled. -/
theorem execution_deterministic (prog : List Inst) (bufs bufs2 : List (List PyVal))
    (gsz lsz : Nat × Nat × Nat) (fuel : Nat) (h : bufs = bufs2) :
    pycall prog bufs gsz lsz fuel = pycall prog bufs2 gsz lsz fuel := by
  rw [h]

/-- Witness for C9: two runs of a concrete two-lane store program produce
the same (successful) result. -/
theorem execution_deterministic_witness :
    pycall
      [⟨UOpK.DEFINE_GLOBAL, some dtypes.int32, [], UArg.none⟩,
       ⟨UOpK.SPECIAL, some dtypes.int32, [], UArg.special 0 'l'⟩,
       ⟨UOpK.STORE, Option.none, [0, 1, 1], UArg.none⟩]
      [[PyVal.vint 9, PyVal.vint 9]] (1, 1, 1) (2, 1, 1) 10
      = pycall
      [⟨UOpK.DEFINE_GLOBAL, some dtypes.int32, [], UArg.none⟩,
       ⟨UOpK.SPECIAL, some dtypes.int32, [], UArg.special 0 'l'⟩,
       ⟨UOpK.STORE, Option.none, [0, 1, 1], UArg.none⟩]
      [[PyVal.vint 9, PyVal.vint 9]] (1, 1, 1) (2, 1, 1) 10 :=
  execution_deterministic _ [[PyVal.vint 9, PyVal.vint 9]] [[PyVal.vint 9, PyVal.vint 9]]
    (1, 1, 1) (2, 1, 1) 10 rfl

/-! ### Claim C7: Value Table entry after a non-void instruction -/

/-- Reading the updated key of a table update. -/
theorem updO_self {α : Type} (f : Nat → Option α) (k : Nat) (v : Option α) :
    updO f k v k = v := by
  simp [updO]

/-- Reading another key of a table update. -/
theorem updO_ne {α : Type} (f : Nat → Option α) (k n : Nat) (v : Option α) (h : n ≠ k) :
    updO f k v n = f n := by
  simp [updO, h]

/-- The only continue-without-assert path of the non-void dispatch is the
loop exit: it clears the loop entry and jumps past the recorded loop end. -/
theorem stepDispatch_inr (prog : List Inst) (warp : List (List Nat)) (idxs : List Nat)
    (st : IState) (inst : Inst) (dtype : MDType) (inp : List PyTree) (dtp : List MDType)
    (s : IState)
    (h : stepDispatch prog warp idxs st inst dtype inp dtp = Except.ok (Sum.inr s)) :
    inst.uop = UOpK.LOOP ∧ s.ul st.iptr = Option.none ∧
    ∃ e, st.loop_ends st.iptr = some e ∧ s.iptr = e + 1 := by
  rcases inst with ⟨uop, dt0, idp, arg⟩
  cases uop <;> simp only [stepDispatch] at h <;> (repeat' split at h) <;>
    first
    | exact Except.noConfusion h
    | exact Sum.noConfusion (Except.ok.inj h)
    | skip
  have hx := Sum.inr.inj (Except.ok.inj h)
  subst hx
  exact ⟨rfl, updO_self _ _ _, ⟨_, by assumption, rfl⟩⟩

/-- Counterexample to C7 as stated: a well-formed vector CONST of vector
count 2 on a warp of size 1 executes successfully and leaves a Value Table
entry whose outer array length is 2 (the vector count, not the warp size)
and whose nested length is 1 (the warp size, not the vector count); no
failure occurs, so the claimed shape (outer length = warp size, nested
length = vector count) does not hold. -/
theorem vt_entry_shape_counterexample :
    (stepUlAt (step vecConstProg [[0, 0, 0]] [0, 0, 0] (initState [])) 0).isSome = true ∧
    entryOuterLen (stepUlAt (step vecConstProg [[0, 0, 0]] [0, 0, 0] (initState [])) 0) = 2 ∧
    entryNestedLen (stepUlAt (step vecConstProg [[0, 0, 0]] [0, 0, 0] (initState [])) 0) = 1 ∧
    ([[0, 0, 0]] : List (List Nat)).length = 1 := by
  exact ⟨rfl, rfl, rfl, rfl⟩

/-- C7 amended: after a successful step of a non-void instruction, either
the pointer advanced by one and the Value Table holds an entry at the
instruction's position (a missing entry would have raised
InternalConsistencyFault insted of succeeding), or the instruction was a
LOOP exiting: its entry is cleared and the pointer jumps past the recorded
matching loop-end. The entry's array shape is not validated by the
interpreter. -/
theorem nonvoid_entry_or_fault (prog : List Inst) (warp : List (List Nat))
    (idxs : List Nat) (st st2 : IState) (inst : Inst)
    (hfetch : prog.get? st.iptr = some inst) (hnv : isVoid inst.uop = false)
    (hstep : step prog warp idxs st = Except.ok (some st2)) :
    (st2.iptr = st.iptr + 1 ∧ (st2.ul st.iptr).isSome = true) ∨
    (inst.uop = UOpK.LOOP ∧ st2.ul st.iptr = Option.none ∧
      ∃ e, st.loop_ends st.iptr = some e ∧ st2.iptr = e + 1) := by
  have hnv' : ¬ (inst.uop = UOpK.STORE) ∧ ¬ (inst.uop = UOpK.ENDLOOP) ∧
      ¬ (inst.uop = UOpK.BARRIER) ∧ ¬ (inst.uop = UOpK.IF) ∧ ¬ (inst.uop = UOpK.ENDIF) := by
    simp only [isVoid] at hnv
    simpa using hnv
  have hOr : ¬ (inst.uop = UOpK.BARRIER ∨ inst.uop = UOpK.IF ∨ inst.uop = UOpK.ENDIF) := by
    rintro (hc | hc | hc)
    · exact hnv'.2.2.1 hc
    · exact hnv'.2.2.2.1 hc
    · exact hnv'.2.2.2.2 hc
  simp only [step, hfetch] at hstep
  rcases hg : gather prog st.ul inst.idp with e | inp
  · simp only [hg] at hstep
    exact Except.noConfusion hstep
  · simp only [hg] at hstep
    rcases hgd : gatherD prog st.dl inst.idp with e | dtp
    · simp only [hgd] at hstep
      exact Except.noConfusion hstep
    · simp only [hgd, eq_false hnv'.1, eq_false hnv'.2.1, eq_false hOr, if_false] at hstep
      rcases hdt : inst.dtype with _ | dtype
      · simp only [hdt] at hstep
        exact Except.noConfusion hstep
      · simp only [hdt] at hstep
        rcases hd : stepDispatch prog warp idxs
            { st with dl := updO st.dl st.iptr (some dtype) } inst dtype inp dtp with e | r
        · simp only [hd] at hstep
          exact Except.noConfusion hstep
        · rcases r with s | s
          · simp only [hd] at hstep
            rcases hul : s.ul st.iptr with _ | t
            · simp only [hul] at hstep
              exact Except.noConfusion hstep
            · simp only [hul] at hstep
              have hs2 := Option.some.inj (Except.ok.inj hstep)
              left
              constructor
              · rw [hs2.symm]
              · rw [hs2.symm]
                show (s.ul st.iptr).isSome = true
                rw [hul]
                rfl
          · simp only [hd] at hstep
            have hs2 := Option.some.inj (Except.ok.inj hstep)
            rcases stepDispatch_inr _ _ _ _ _ _ _ _ _ hd with ⟨hu, hulc, e, hle, hip⟩
            right
            refine ⟨hu, ?_, ⟨e, hle, ?_⟩⟩
            · rw [hs2.symm]
              exact hulc
            · rw [hs2.symm]
              exact hip

/-- Witness for the amended C7: one step of a scalar CONST program lands in
the left disjunct (pointer advanced, entry present). -/
theorem nonvoid_entry_or_fault_witness :
    ((stepStateD (step [⟨UOpK.CONST, some dtypes.int32, [], UArg.cval (PyVal.vint 3)⟩]
        [[0, 0, 0]] [0, 0, 0] (initState []))).iptr = (initState []).iptr + 1 ∧
      ((stepStateD (step [⟨UOpK.CONST, some dtypes.int32, [], UArg.cval (PyVal.vint 3)⟩]
        [[0, 0, 0]] [0, 0, 0] (initState []))).ul (initState []).iptr).isSome = true) ∨
    ((⟨UOpK.CONST, some dtypes.int32, [], UArg.cval (PyVal.vint 3)⟩ : Inst).uop = UOpK.LOOP ∧
      (stepStateD (step [⟨UOpK.CONST, some dtypes.int32, [], UArg.cval (PyVal.vint 3)⟩]
        [[0, 0, 0]] [0, 0, 0] (initState []))).ul (initState []).iptr = Option.none ∧
      ∃ e, (initState []).loop_ends (initState []).iptr = some e ∧
        (stepStateD (step [⟨UOpK.CONST, some dtypes.int32, [], UArg.cval (PyVal.vint 3)⟩]
          [[0, 0, 0]] [0, 0, 0] (initState []))).iptr = e + 1) :=
  nonvoid_entry_or_fault
    [⟨UOpK.CONST, some dtypes.int32, [], UArg.cval (PyVal.vint 3)⟩]
    [[0, 0, 0]] [0, 0, 0] (initState []) _ _ rfl (by decide) rfl

/-! ### Claim C2: loop execution -/

/-- Gather of a two-operand list over non-void producers. -/
theorem gather_pair (prog : List Inst) (ul : Nat → Option PyTree) (a b : Nat)
    (instA instB : Inst) (ta tb : PyTree)
    (hA : prog.get? a = some instA) (hAnv : isVoid instA.uop = false)
    (hB : prog.get? b = some instB) (hBnv : isVoid instB.uop = false)
    (hua : ul a = some ta) (hub : ul b = some tb) :
    gather prog ul [a, b] = Except.ok [ta, tb] := by
  simp only [List.get?_eq_getElem?] at hA hB
  simp [gather, hA, hB, hAnv, hBnv, hua, hub]

/-- Dtype gather of a two-operand list over non-void producers. -/
theorem gatherD_pair (prog : List Inst) (dl : Nat → Option MDType) (a b : Nat)
    (instA instB : Inst) (da db : MDType)
    (hA : prog.get? a = some instA) (hAnv : isVoid instA.uop = false)
    (hB : prog.get? b = some instB) (hBnv : isVoid instB.uop = false)
    (hda : dl a = some da) (hdb : dl b = some db) :
    gatherD prog dl [a, b] = Except.ok [da, db] := by
  simp only [List.get?_eq_getElem?] at hA hB
  simp [gatherD, hA, hB, hAnv, hBnv, hda, hdb]

/-- Gather of a single-operand list over a non-void producer. -/
theorem gather_single (prog : List Inst) (ul : Nat → Option PyTree) (a : Nat)
    (instA : Inst) (ta : PyTree)
    (hA : prog.get? a = some instA) (hAnv : isVoid instA.uop = false)
    (hua : ul a = some ta) :
    gather prog ul [a] = Except.ok [ta] := by
  simp only [List.get?_eq_getElem?] at hA
  simp [gather, hA, hAnv, hua]

/-- Dtype gather of a single-operand list over a non-void producer. -/
theorem gatherD_single (prog : List Inst) (dl : Nat → Option MDType) (a : Nat)
    (instA : Inst) (da : MDType)
    (hA : prog.get? a = some instA) (hAnv : isVoid instA.uop = false)
    (hda : dl a = some da) :
    gatherD prog dl [a] = Except.ok [da] := by
  simp only [List.get?_eq_getElem?] at hA
  simp [gatherD, hA, hAnv, hda]

/-- Integer scalars add componentwise. -/
theorem pvAdd_vint (m n : Int) : pvAdd (PyVal.vint m) (PyVal.vint n) = PyVal.vint (m + n) := rfl

/-- Per-lane increment of a replicated integer loop variable. -/
theorem mapExcept_incr (ws : Nat) (v : Int) :
    mapExcept (fun t =>
        match t with
        | PyTree.val v2 => Except.ok (PyTree.val (pvAdd v2 (PyVal.vint 1)))
        | _ => Except.error RErr.typeError)
      (List.replicate ws (PyTree.val (PyVal.vint v)))
      = Except.ok (List.replicate ws (PyTree.val (PyVal.vint (v + 1)))) := by
  induction ws with
  | zero => rfl
  | succ n ih =>
      simp only [List.replicate_succ, mapExcept, ih, pvAdd_vint]

/-- Integer scalars compare by integer equality. -/
theorem pvEqB_vint (m n : Int) : pvEqB (PyVal.vint m) (PyVal.vint n) = decide (m = n) := by
  simp only [pvEqB, PyVal.toQ]
  exact decide_eq_decide.mpr Int.cast_inj

/-- A first visit of a LOOP instruction (no Value Table entry yet) binds
the loop variable to the first lane of the start operand, replicated over
the warp, and falls through into the body. -/
theorem step_loop_first (prog : List Inst) (warp : List (List Nat)) (idxs : List Nat)
    (st : IState) (a b : Nat) (dt : MDType) (argL : UArg) (instA instB : Inst)
    (x0 : PyTree) (restA : List PyTree) (tb : PyTree) (da db : MDType)
    (hfetch : prog.get? st.iptr = some ⟨UOpK.LOOP, some dt, [a, b], argL⟩)
    (hA : prog.get? a = some instA) (hAnv : isVoid instA.uop = false)
    (hB : prog.get? b = some instB) (hBnv : isVoid instB.uop = false)
    (hula : st.ul a = some (PyTree.node (x0 :: restA)))
    (hulb : st.ul b = some tb)
    (hdla : st.dl a = some da) (hdlb : st.dl b = some db)
    (hnone : st.ul st.iptr = Option.none) :
    step prog warp idxs st
      = Except.ok (some (loopFirstState st st.iptr dt x0 warp.length)) := by
  simp only [step, hfetch,
    gather_pair prog st.ul a b instA instB _ tb hA hAnv hB hBnv hula hulb,
    gatherD_pair prog st.dl a b instA instB da db hA hAnv hB hBnv hdla hdlb]
  simp only [stepDispatch, hnone, PyTree.index, loopFirstState, updO_self]
  simp [updO_self]

/-- An ENDLOOP step records its own position as the loop's jump target and
sets the pointer back to the loop header (the back-edge). -/
theorem step_endloop (prog : List Inst) (warp : List (List Nat)) (idxs : List Nat)
    (st : IState) (i0 : Nat) (dtE : Option MDType) (argE : UArg)
    (loopInst : Inst) (t0 : PyTree) (d0 : MDType)
    (hfetch : prog.get? st.iptr = some ⟨UOpK.ENDLOOP, dtE, [i0], argE⟩)
    (hL : prog.get? i0 = some loopInst) (hLnv : isVoid loopInst.uop = false)
    (hul : st.ul i0 = some t0) (hdl : st.dl i0 = some d0) :
    step prog warp idxs st = Except.ok (some (endloopState st i0 st.iptr)) := by
  simp only [step, hfetch,
    gather_single prog st.ul i0 loopInst t0 hL hLnv hul,
    gatherD_single prog st.dl i0 loopInst d0 hL hLnv hdl]
  simp [endloopState]

/-- A revisit of the LOOP header whose incremented variable has not reached
the end bound falls through into the body with the incremented variable. -/
theorem step_loop_again (prog : List Inst) (warp : List (List Nat)) (idxs : List Nat)
    (st : IState) (a b : Nat) (dt : MDType) (argL : UArg) (instA instB : Inst)
    (ta : PyTree) (restB : List PyTree) (v endv : Int) (da db : MDType)
    (hfetch : prog.get? st.iptr = some ⟨UOpK.LOOP, some dt, [a, b], argL⟩)
    (hA : prog.get? a = some instA) (hAnv : isVoid instA.uop = false)
    (hB : prog.get? b = some instB) (hBnv : isVoid instB.uop = false)
    (hula : st.ul a = some ta)
    (hulb : st.ul b = some (PyTree.node (PyTree.val (PyVal.vint endv) :: restB)))
    (hdla : st.dl a = some da) (hdlb : st.dl b = some db)
    (hcur : st.ul st.iptr
      = some (PyTree.node (List.replicate warp.length (PyTree.val (PyVal.vint v)))))
    (hws : 0 < warp.length) (hne : v + 1 ≠ endv) :
    step prog warp idxs st
      = Except.ok (some (loopAgainState st st.iptr dt v warp.length)) := by
  obtain ⟨n, hn⟩ : ∃ n, warp.length = n + 1 :=
    ⟨warp.length - 1, (Nat.succ_pred_eq_of_pos hws).symm⟩
  simp only [step, hfetch,
    gather_pair prog st.ul a b instA instB ta _ hA hAnv hB hBnv hula hulb,
    gatherD_pair prog st.dl a b instA instB da db hA hAnv hB hBnv hdla hdlb]
  simp only [stepDispatch, hcur, PyTree.asNode, mapExcept_incr]
  rw [hn]
  simp only [List.replicate_succ, pyEqTree, pvEqB_vint, decide_eq_false hne, PyTree.index]
  simp [loopAgainState, updO_self, hn, List.replicate_succ, pyEqTree, pvEqB_vint, hne]

/-- A revisit of the LOOP header whose incremented variable equals the end
bound deletes the variable and jumps past the recorded matching loop-end. -/
theorem step_loop_exit (prog : List Inst) (warp : List (List Nat)) (idxs : List Nat)
    (st : IState) (a b : Nat) (dt : MDType) (argL : UArg) (instA instB : Inst)
    (ta : PyTree) (restB : List PyTree) (v endv : Int) (da db : MDType) (e : Nat)
    (hfetch : prog.get? st.iptr = some ⟨UOpK.LOOP, some dt, [a, b], argL⟩)
    (hA : prog.get? a = some instA) (hAnv : isVoid instA.uop = false)
    (hB : prog.get? b = some instB) (hBnv : isVoid instB.uop = false)
    (hula : st.ul a = some ta)
    (hulb : st.ul b = some (PyTree.node (PyTree.val (PyVal.vint endv) :: restB)))
    (hdla : st.dl a = some da) (hdlb : st.dl b = some db)
    (hcur : st.ul st.iptr
      = some (PyTree.node (List.replicate warp.length (PyTree.val (PyVal.vint v)))))
    (hws : 0 < warp.length) (heq : v + 1 = endv)
    (hle : st.loop_ends st.iptr = some e) :
    step prog warp idxs st
      = Except.ok (some (loopExitState st st.iptr dt e)) := by
  obtain ⟨n, hn⟩ : ∃ n, warp.length = n + 1 :=
    ⟨warp.length - 1, (Nat.succ_pred_eq_of_pos hws).symm⟩
  simp only [step, hfetch,
    gather_pair prog st.ul a b instA instB ta _ hA hAnv hB hBnv hula hulb,
    gatherD_pair prog st.dl a b instA instB da db hA hAnv hB hBnv hdla hdlb]
  simp only [stepDispatch, hcur, PyTree.asNode, mapExcept_incr]
  rw [hn]
  simp only [List.replicate_succ, pyEqTree, pvEqB_vint, decide_eq_true heq, PyTree.index, hle]
  simp [loopExitState, updO_self, hn, List.replicate_succ, pyEqTree, pvEqB_vint, heq, hle]

/-- A single successful step is a reachability witness. -/
theorem steps_one (prog : List Inst) (warp : List (List Nat)) (idxs : List Nat)
    (s s2 : IState) (h : step prog warp idxs s = Except.ok (some s2)) :
    Steps prog warp idxs s s2 :=
  ⟨1, by simp [nstepsO, h]⟩

/-- Step counts add along reachability. -/
theorem nstepsO_add (prog : List Inst) (warp : List (List Nat)) (idxs : List Nat)
    (m n : Nat) (s : IState) :
    nstepsO prog warp idxs (m + n) s
      = Option.bind (nstepsO prog warp idxs m s) (nstepsO prog warp idxs n) := by
  induction m generalizing s with
  | zero => simp [nstepsO]
  | succ k ih =>
      have hm : k + 1 + n = (k + n) + 1 := by omega
      rw [hm]
      show (match step prog warp idxs s with
        | Except.ok (some s2) => nstepsO prog warp idxs (k + n) s2
        | _ => Option.none) = _
      cases hs : step prog warp idxs s with
      | error er => simp [nstepsO, hs]
      | ok o =>
          cases o with
          | none => simp [nstepsO, hs]
          | some s2 => simp [nstepsO, hs, ih]

/-- Reachability is transitive. -/
theorem steps_trans (prog : List Inst) (warp : List (List Nat)) (idxs : List Nat)
    (s s2 s3 : IState) (h1 : Steps prog warp idxs s s2) (h2 : Steps prog warp idxs s2 s3) :
    Steps prog warp idxs s s3 := by
  rcases h1 with ⟨m, hm⟩
  rcases h2 with ⟨n, hn⟩
  exact ⟨m + n, by rw [nstepsO_add, hm]; exact hn⟩

/-- C2: a LOOP whose integer bounds satisfy start < end executes its body
exactly N = end - start times with the loop variable holding start, start+1,
..., end-1 in that order, then exits past the matching ENDLOOP. The body is
abstracted by a transformer F that runs from the body entry to the matching
ENDLOOP preserving the loop bookkeeping (hypothesis hF); the conclusion
exhibits the chain of body-entry states B 0, ..., B (N-1) (each reachable
from the previous, with the loop variable equal to start + k on the k-th),
and the exit state, reached from B (N-1), with the pointer one past the
loop-end and the loop variable entry cleared. -/
theorem loop_executes_n_times
    (prog : List Inst) (warp : List (List Nat)) (idxs : List Nat)
    (i0 a b e : Nat) (dt : MDType) (argL : UArg) (instA instB : Inst)
    (dtE : Option MDType) (argE : UArg)
    (startv endv : Int) (restA restB : List PyTree) (da db : MDType)
    (st0 : IState) (F : IState → IState)
    (hws : 0 < warp.length)
    (hfetch : prog.get? i0 = some ⟨UOpK.LOOP, some dt, [a, b], argL⟩)
    (hfetchE : prog.get? e = some ⟨UOpK.ENDLOOP, dtE, [i0], argE⟩)
    (hA : prog.get? a = some instA) (hAnv : isVoid instA.uop = false)
    (hB : prog.get? b = some instB) (hBnv : isVoid instB.uop = false)
    (hai : a ≠ i0) (hbi : b ≠ i0)
    (hlt : startv < endv)
    (hst0 : st0.iptr = i0) (hnone : st0.ul i0 = Option.none)
    (hula : st0.ul a = some (PyTree.node (PyTree.val (PyVal.vint startv) :: restA)))
    (hulb : st0.ul b = some (PyTree.node (PyTree.val (PyVal.vint endv) :: restB)))
    (hdla : st0.dl a = some da) (hdlb : st0.dl b = some db)
    (hF : ∀ s v, s.iptr = i0 + 1 →
        s.ul i0 = some (PyTree.node (List.replicate warp.length (PyTree.val (PyVal.vint v)))) →
        startv ≤ v → v < endv →
        Steps prog warp idxs s (F s) ∧ (F s).iptr = e ∧
        (F s).ul i0 = s.ul i0 ∧ (F s).ul a = s.ul a ∧ (F s).ul b = s.ul b ∧
        (F s).dl i0 = s.dl i0 ∧ (F s).dl a = s.dl a ∧ (F s).dl b = s.dl b) :
    Steps prog warp idxs st0
      (loopBodyIter F i0 e dt warp.length startv
        (loopFirstState st0 i0 dt (PyTree.val (PyVal.vint startv)) warp.length) 0) ∧
    (∀ k, k < (endv - startv).toNat →
      (loopBodyIter F i0 e dt warp.length startv
        (loopFirstState st0 i0 dt (PyTree.val (PyVal.vint startv)) warp.length) k).iptr
        = i0 + 1 ∧
      (loopBodyIter F i0 e dt warp.length startv
        (loopFirstState st0 i0 dt (PyTree.val (PyVal.vint startv)) warp.length) k).ul i0
        = some (PyTree.node (List.replicate warp.length
            (PyTree.val (PyVal.vint (startv + k)))))) ∧
    (∀ k, k + 1 < (endv - startv).toNat →
      Steps prog warp idxs
        (loopBodyIter F i0 e dt warp.length startv
          (loopFirstState st0 i0 dt (PyTree.val (PyVal.vint startv)) warp.length) k)
        (loopBodyIter F i0 e dt warp.length startv
          (loopFirstState st0 i0 dt (PyTree.val (PyVal.vint startv)) warp.length) (k + 1))) ∧
    Steps prog warp idxs
      (loopBodyIter F i0 e dt warp.length startv
        (loopFirstState st0 i0 dt (PyTree.val (PyVal.vint startv)) warp.length)
        ((endv - startv).toNat - 1))
      (loopExitState (endloopState
        (F (loopBodyIter F i0 e dt warp.length startv
          (loopFirstState st0 i0 dt (PyTree.val (PyVal.vint startv)) warp.length)
          ((endv - startv).toNat - 1))) i0 e) i0 dt e) ∧
    (loopExitState (endloopState
      (F (loopBodyIter F i0 e dt warp.length startv
        (loopFirstState st0 i0 dt (PyTree.val (PyVal.vint startv)) warp.length)
        ((endv - startv).toNat - 1))) i0 e) i0 dt e).iptr = e + 1 ∧
    (loopExitState (endloopState
      (F (loopBodyIter F i0 e dt warp.length startv
        (loopFirstState st0 i0 dt (PyTree.val (PyVal.vint startv)) warp.length)
        ((endv - startv).toNat - 1))) i0 e) i0 dt e).ul i0 = Option.none := by
  have hcast : ((endv - startv).toNat : Int) = endv - startv := by omega
  have hNpos : 0 < (endv - startv).toNat := by omega
  have hInv : ∀ k, k < (endv - startv).toNat →
      ((loopBodyIter F i0 e dt warp.length startv
        (loopFirstState st0 i0 dt (PyTree.val (PyVal.vint startv)) warp.length) k).iptr
          = i0 + 1 ∧
       (loopBodyIter F i0 e dt warp.length startv
        (loopFirstState st0 i0 dt (PyTree.val (PyVal.vint startv)) warp.length) k).ul i0
          = some (PyTree.node (List.replicate warp.length
              (PyTree.val (PyVal.vint (startv + k))))) ∧
       (loopBodyIter F i0 e dt warp.length startv
        (loopFirstState st0 i0 dt (PyTree.val (PyVal.vint startv)) warp.length) k).ul a
          = st0.ul a ∧
       (loopBodyIter F i0 e dt warp.length startv
        (loopFirstState st0 i0 dt (PyTree.val (PyVal.vint startv)) warp.length) k).ul b
          = st0.ul b ∧
       (loopBodyIter F i0 e dt warp.length startv
        (loopFirstState st0 i0 dt (PyTree.val (PyVal.vint startv)) warp.length) k).dl i0
          = some dt ∧
       (loopBodyIter F i0 e dt warp.length startv
        (loopFirstState st0 i0 dt (PyTree.val (PyVal.vint startv)) warp.length) k).dl a
          = st0.dl a ∧
       (loopBodyIter F i0 e dt warp.length startv
        (loopFirstState st0 i0 dt (PyTree.val (PyVal.vint startv)) warp.length) k).dl b
          = st0.dl b) := by
    intro k
    induction k with
    | zero =>
        intro _
        refine ⟨rfl, ?_, ?_, ?_, ?_, ?_, ?_⟩
        · show (loopFirstState st0 i0 dt (PyTree.val (PyVal.vint startv)) warp.length).ul i0 = _
          simp [loopFirstState, updO_self]
        · exact updO_ne _ _ _ _ hai
        · exact updO_ne _ _ _ _ hbi
        · exact updO_self _ _ _
        · exact updO_ne _ _ _ _ hai
        · exact updO_ne _ _ _ _ hbi
    | succ k ih =>
        intro hk1
        have hk : k < (endv - startv).toNat := Nat.lt_of_succ_lt hk1
        obtain ⟨hiptr, huli0, hula2, hulb2, hdli0, hdla2, hdlb2⟩ := ih hk
        obtain ⟨_, hFi, hFulI0, hFula, hFulb, hFdlI0, hFdla, hFdlb⟩ :=
          hF _ (startv + k) hiptr huli0 (by omega) (by omega)
        have hvcast : startv + (k : Int) + 1 = startv + ((k + 1 : Nat) : Int) := by
          push_cast
          ring
        refine ⟨rfl, ?_, ?_, ?_, ?_, ?_, ?_⟩
        · show (loopAgainState _ i0 dt (startv + k) warp.length).ul i0 = _
          rw [loopAgainState]
          show updO _ i0 _ i0 = _
          rw [updO_self, hvcast]
        · show updO _ i0 _ a = _
          rw [updO_ne _ _ _ _ hai]
          show (F _).ul a = _
          rw [hFula, hula2]
        · show updO _ i0 _ b = _
          rw [updO_ne _ _ _ _ hbi]
          show (F _).ul b = _
          rw [hFulb, hulb2]
        · show updO _ i0 _ i0 = _
          rw [updO_self]
        · show updO _ i0 _ a = _
          rw [updO_ne _ _ _ _ hai]
          show (F _).dl a = _
          rw [hFdla, hdla2]
        · show updO _ i0 _ b = _
          rw [updO_ne _ _ _ _ hbi]
          show (F _).dl b = _
          rw [hFdlb, hdlb2]
  refine ⟨?_, fun k hk => ⟨(hInv k hk).1, (hInv k hk).2.1⟩, ?_, ?_, rfl, updO_self _ _ _⟩
  · have h1 := step_loop_first prog warp idxs st0 a b dt argL instA instB
      (PyTree.val (PyVal.vint startv)) restA _ da db
      (by rw [hst0]; exact hfetch) hA hAnv hB hBnv hula hulb hdla hdlb
      (by rw [hst0]; exact hnone)
    rw [hst0] at h1
    exact steps_one _ _ _ _ _ h1
  · intro k hk1
    have hk : k < (endv - startv).toNat := Nat.lt_of_succ_lt hk1
    obtain ⟨hiptr, huli0, hula2, hulb2, hdli0, hdla2, hdlb2⟩ := hInv k hk
    obtain ⟨hSteps, hFi, hFulI0, hFula, hFulb, hFdlI0, hFdla, hFdlb⟩ :=
      hF _ (startv + k) hiptr huli0 (by omega) (by omega)
    have h2 := step_endloop prog warp idxs
      (F (loopBodyIter F i0 e dt warp.length startv
        (loopFirstState st0 i0 dt (PyTree.val (PyVal.vint startv)) warp.length) k))
      i0 dtE argE ⟨UOpK.LOOP, some dt, [a, b], argL⟩ _ dt
      (by rw [hFi]; exact hfetchE) hfetch rfl
      (by rw [hFulI0]; exact huli0) (by rw [hFdlI0]; exact hdli0)
    rw [hFi] at h2
    have h3 := step_loop_again prog warp idxs
      (endloopState (F (loopBodyIter F i0 e dt warp.length startv
        (loopFirstState st0 i0 dt (PyTree.val (PyVal.vint startv)) warp.length) k)) i0 e)
      a b dt argL instA instB _ restB (startv + k) endv da db
      hfetch hA hAnv hB hBnv
      (show _ = some _ from (hFula.trans hula2).trans hula)
      ((hFulb.trans hulb2).trans hulb)
      ((hFdla.trans hdla2).trans hdla) ((hFdlb.trans hdlb2).trans hdlb)
      (hFulI0.trans huli0) hws (by omega)
    show Steps prog warp idxs _
      (loopAgainState (endloopState (F (loopBodyIter F i0 e dt warp.length startv
        (loopFirstState st0 i0 dt (PyTree.val (PyVal.vint startv)) warp.length) k)) i0 e)
        i0 dt (startv + k) warp.length)
    exact steps_trans _ _ _ _ _ _ hSteps
      (steps_trans _ _ _ _ _ _ (steps_one _ _ _ _ _ h2) (steps_one _ _ _ _ _ h3))
  · obtain ⟨hiptr, huli0, hula2, hulb2, hdli0, hdla2, hdlb2⟩ :=
      hInv ((endv - startv).toNat - 1) (by omega)
    obtain ⟨hSteps, hFi, hFulI0, hFula, hFulb, hFdlI0, hFdla, hFdlb⟩ :=
      hF _ (startv + (((endv - startv).toNat - 1 : Nat) : Int)) hiptr huli0 (by omega) (by omega)
    have h2 := step_endloop prog warp idxs
      (F (loopBodyIter F i0 e dt warp.length startv
        (loopFirstState st0 i0 dt (PyTree.val (PyVal.vint startv)) warp.length)
        ((endv - startv).toNat - 1)))
      i0 dtE argE ⟨UOpK.LOOP, some dt, [a, b], argL⟩ _ dt
      (by rw [hFi]; exact hfetchE) hfetch rfl
      (by rw [hFulI0]; exact huli0) (by rw [hFdlI0]; exact hdli0)
    rw [hFi] at h2
    have h3 := step_loop_exit prog warp idxs
      (endloopState (F (loopBodyIter F i0 e dt warp.length startv
        (loopFirstState st0 i0 dt (PyTree.val (PyVal.vint startv)) warp.length)
        ((endv - startv).toNat - 1))) i0 e)
      a b dt argL instA instB _ restB (startv + (((endv - startv).toNat - 1 : Nat) : Int)) endv da db e
      hfetch hA hAnv hB hBnv
      ((hFula.trans hula2).trans hula)
      ((hFulb.trans hulb2).trans hulb)
      ((hFdla.trans hdla2).trans hdla) ((hFdlb.trans hdlb2).trans hdlb)
      (hFulI0.trans huli0) hws (by omega)
      (updO_self _ _ _)
    exact steps_trans _ _ _ _ _ _ hSteps
      (steps_trans _ _ _ _ _ _ (steps_one _ _ _ _ _ h2) (steps_one _ _ _ _ _ h3))

/-- Witness for C2 on the concrete loop program with bounds 0 and 2 on a
one-lane warp and an empty body (the body transformer is the identity,
since the body entry is already the ENDLOOP position): the loop body runs
twice with variable values 0 and 1 and exits to position 4 with the
variable cleared. -/
theorem loop_executes_n_times_witness :
    Steps loopDemoProg [[0, 0, 0]] [0, 0, 0] loopDemoState
      (loopBodyIter id 2 3 dtypes.int32 1 0
        (loopFirstState loopDemoState 2 dtypes.int32 (PyTree.val (PyVal.vint 0)) 1) 0) ∧
    (∀ k, k < 2 →
      (loopBodyIter id 2 3 dtypes.int32 1 0
        (loopFirstState loopDemoState 2 dtypes.int32 (PyTree.val (PyVal.vint 0)) 1) k).iptr
        = 2 + 1 ∧
      (loopBodyIter id 2 3 dtypes.int32 1 0
        (loopFirstState loopDemoState 2 dtypes.int32 (PyTree.val (PyVal.vint 0)) 1) k).ul 2
        = some (PyTree.node (List.replicate 1 (PyTree.val (PyVal.vint (0 + (k : Int))))))) ∧
    (∀ k, k + 1 < 2 →
      Steps loopDemoProg [[0, 0, 0]] [0, 0, 0]
        (loopBodyIter id 2 3 dtypes.int32 1 0
          (loopFirstState loopDemoState 2 dtypes.int32 (PyTree.val (PyVal.vint 0)) 1) k)
        (loopBodyIter id 2 3 dtypes.int32 1 0
          (loopFirstState loopDemoState 2 dtypes.int32 (PyTree.val (PyVal.vint 0)) 1) (k + 1))) ∧
    Steps loopDemoProg [[0, 0, 0]] [0, 0, 0]
      (loopBodyIter id 2 3 dtypes.int32 1 0
        (loopFirstState loopDemoState 2 dtypes.int32 (PyTree.val (PyVal.vint 0)) 1) 1)
      (loopExitState (endloopState
        (id (loopBodyIter id 2 3 dtypes.int32 1 0
          (loopFirstState loopDemoState 2 dtypes.int32 (PyTree.val (PyVal.vint 0)) 1) 1)) 2 3)
        2 dtypes.int32 3) ∧
    (loopExitState (endloopState
      (id (loopBodyIter id 2 3 dtypes.int32 1 0
        (loopFirstState loopDemoState 2 dtypes.int32 (PyTree.val (PyVal.vint 0)) 1) 1)) 2 3)
      2 dtypes.int32 3).iptr = 3 + 1 ∧
    (loopExitState (endloopState
      (id (loopBodyIter id 2 3 dtypes.int32 1 0
        (loopFirstState loopDemoState 2 dtypes.int32 (PyTree.val (PyVal.vint 0)) 1) 1)) 2 3)
      2 dtypes.int32 3).ul 2 = Option.none :=
  loop_executes_n_times loopDemoProg [[0, 0, 0]] [0, 0, 0] 2 0 1 3 dtypes.int32 UArg.none
    ⟨UOpK.CONST, some dtypes.int32, [], UArg.cval (PyVal.vint 0)⟩
    ⟨UOpK.CONST, some dtypes.int32, [], UArg.cval (PyVal.vint 2)⟩
    Option.none UArg.none 0 2 [] [] dtypes.int32 dtypes.int32 loopDemoState id
    (by decide) rfl rfl rfl rfl rfl rfl
    (by decide) (by decide) (by decide)
    rfl rfl rfl rfl rfl rfl
    (fun s v h1 h2 h3 h4 => ⟨⟨0, rfl⟩, h1, rfl, rfl, rfl, rfl, rfl, rfl⟩)
